import Mathlib

/-!
Shallow embedding of the uesave GVAS save-file codec: the package core
src/uesave/__init__.py (binary cursor primitives, property codec, header
codec, compression envelope, file facade) together with the custom-versions
variant cascade of the standalone src/uesave.py (parse_gvas_header).

Conventions of the embedding:
- byte buffers are `List Nat` whose entries are below 256;
- Python `str` values are `List Char` (Unicode scalar values; Lean `Char`
  cannot hold lone surrogates, on which every code path here agrees with
  CPython for surrogate-free data);
- operations that can raise a Python exception return `Option`/`Except`;
- cursor offsets are `Nat`; `struct.unpack_from` raising on a short buffer
  is modelled by an explicit bounds check, while Python slicing (which
  silently truncates) is modelled by `drop`/`take`;
- IEEE float payloads (FloatProperty/DoubleProperty and the float fields of
  Quat/Vector structs) are modelled at the bit level as their raw
  little-endian bytes; `struct.pack('<f', struct.unpack('<f', b))` is the
  identity at that level.
-/

namespace Uesave

/-- GVAS magic bytes, the ASCII codes of "GVAS" (`MAGIC` in the source). -/
def MAGIC : List Nat := [71, 86, 65, 83]

/-- Little-endian value of a byte list (least significant byte first). -/
def leVal (l : List Nat) : Nat := l.foldr (fun b acc => b + 256 * acc) 0

/-- Two-byte little-endian rendering of a value below 2^16. -/
def toLE2 (n : Nat) : List Nat := [n % 256, n / 256 % 256]

/-- Four-byte little-endian rendering of a value below 2^32. -/
def toLE4 (n : Nat) : List Nat :=
  [n % 256, n / 256 % 256, n / 65536 % 256, n / 16777216 % 256]

/-- Model of `_read_u32`: `struct.unpack_from('<I', data, offset)`;
raises (returns `none`) when fewer than four bytes remain. -/
def readU32 (data : List Nat) (off : Nat) : Option (Nat × Nat) :=
  if off + 4 ≤ data.length then some (leVal ((data.drop off).take 4), off + 4)
  else none

/-- Model of `_read_i32`: `struct.unpack_from('<i', data, offset)`,
two's-complement signed interpretation. -/
def readI32 (data : List Nat) (off : Nat) : Option (Int × Nat) :=
  if off + 4 ≤ data.length then
    let n := leVal ((data.drop off).take 4)
    some (if n < 2147483648 then (n : Int) else (n : Int) - 4294967296, off + 4)
  else none

/-- Model of `_read_u16`: `struct.unpack_from('<H', data, offset)`. -/
def readU16 (data : List Nat) (off : Nat) : Option (Nat × Nat) :=
  if off + 2 ≤ data.length then some (leVal ((data.drop off).take 2), off + 2)
  else none

/-- Model of `_write_u32`: `struct.pack('<I', int(v) & 0xFFFFFFFF)` — the
mask makes this total. -/
def writeU32 (v : Nat) : List Nat := toLE4 (v % 4294967296)

/-- Model of `_write_u16`: `struct.pack('<H', int(v) & 0xFFFF)`. -/
def writeU16 (v : Nat) : List Nat := toLE2 (v % 65536)

/-- Model of `_write_i32`: `struct.pack('<i', int(v))`, which raises
`struct.error` when the value does not fit a signed 32-bit integer. -/
def writeI32 (v : Int) : Option (List Nat) :=
  if -2147483648 ≤ v ∧ v < 2147483648 then
    some (toLE4 ((v % 4294967296).toNat))
  else none

/-- UTF-8 encoding of one Unicode scalar value (CPython `str.encode('utf-8')`
acting on a single character). -/
def utf8EncodeChar (c : Char) : List Nat :=
  let n := c.toNat
  if n < 128 then [n]
  else if n < 2048 then [192 + n / 64, 128 + n % 64]
  else if n < 65536 then [224 + n / 4096, 128 + n / 64 % 64, 128 + n % 64]
  else [240 + n / 262144, 128 + n / 4096 % 64, 128 + n / 64 % 64, 128 + n % 64]

/-- UTF-8 encoding of a string, `s.encode('utf-8')`. -/
def utf8Encode (l : List Char) : List Nat := (l.map utf8EncodeChar).flatten

/-- Whether a second byte is a valid UTF-8 continuation for a given leading
byte (CPython's range restrictions excluding overlong forms and surrogates). -/
def utf8Cont2Ok (b b2 : Nat) : Bool :=
  if b = 224 then decide (160 ≤ b2 ∧ b2 < 192)
  else if b = 237 then decide (128 ≤ b2 ∧ b2 < 160)
  else if b = 240 then decide (144 ≤ b2 ∧ b2 < 192)
  else if b = 244 then decide (128 ≤ b2 ∧ b2 < 144)
  else decide (128 ≤ b2 ∧ b2 < 192)

/-- Number of leading generic UTF-8 continuation bytes (0x80-0xBF). -/
def utf8ContCount : List Nat → Nat
  | [] => 0
  | c :: cs => if 128 ≤ c ∧ c < 192 then 1 + utf8ContCount cs else 0

/-- Number of leading valid continuation bytes for lead byte `b`: the first
is checked against the lead-byte-specific range, later ones generically. -/
def utf8ValidCount (b : Nat) : List Nat → Nat
  | [] => 0
  | c :: cs => if utf8Cont2Ok b c then 1 + utf8ContCount cs else 0

/-- Scalar value of a UTF-8 sequence from its lead byte and continuations. -/
def utf8Val (b : Nat) (conts : List Nat) : Nat :=
  conts.foldl (fun acc c => acc * 64 + (c - 128))
    (if b < 224 then b - 192 else if b < 240 then b - 224 else b - 240)

/-- Fuel-bounded body of `utf8DecodeIgnore`; the fuel dominates the list
length, so each step may consume several bytes. Ill-formed input follows
CPython's `errors='ignore'`: a maximal ill-formed subsequence (a stray or
invalid lead byte, or a lead byte with its longest valid continuation
prefix) is dropped and decoding resumes at the next byte; a truncated but
so-far-valid sequence at the end of input is dropped entirely. -/
def utf8DecodeIgnoreAux : Nat → List Nat → List Char
  | 0, _ => []
  | fuel + 1, l =>
    match l with
    | [] => []
    | b :: rest =>
      if b < 128 then Char.ofNat b :: utf8DecodeIgnoreAux fuel rest
      else if b < 194 then utf8DecodeIgnoreAux fuel rest
      else if 245 ≤ b then utf8DecodeIgnoreAux fuel rest
      else
        let need := if b < 224 then 1 else if b < 240 then 2 else 3
        let conts := rest.take need
        let nvalid := utf8ValidCount b conts
        if nvalid = need then
          Char.ofNat (utf8Val b conts) :: utf8DecodeIgnoreAux fuel (rest.drop need)
        else if nvalid = conts.length then []
        else utf8DecodeIgnoreAux fuel (rest.drop nvalid)
termination_by structural fuel _ => fuel

/-- Model of `raw.decode('utf-8', errors='ignore')`. -/
def utf8DecodeIgnore (l : List Nat) : List Char := utf8DecodeIgnoreAux l.length l

/-- Model of `raw.decode('utf-16-le', errors='ignore')`: bytes are paired
little-endian into code units; surrogate pairs combine; lone surrogates and
a trailing odd byte are dropped. -/
def utf16leDecodeIgnore : List Nat → List Char
  | [] => []
  | [_] => []
  | b0 :: b1 :: rest =>
    let u := b0 + 256 * b1
    if u < 55296 ∨ 57344 ≤ u then Char.ofNat u :: utf16leDecodeIgnore rest
    else if u < 56320 then
      match rest with
      | [] => []
      | [_] => []
      | c0 :: c1 :: rest2 =>
        let u2 := c0 + 256 * c1
        if 56320 ≤ u2 ∧ u2 < 57344 then
          Char.ofNat (65536 + (u - 55296) * 1024 + (u2 - 56320)) ::
            utf16leDecodeIgnore rest2
        else utf16leDecodeIgnore (c0 :: c1 :: rest2)
    else utf16leDecodeIgnore rest
termination_by structural l => l

/-- Model of `s.rstrip('\x00')`: drop every trailing NUL character. -/
def rstripNul (l : List Char) : List Char :=
  (l.reverse.dropWhile (fun c => c = Char.ofNat 0)).reverse

/-- Model of `_read_string`: read an `i32` length; zero means empty,
negative means UTF-16LE with `-length` code units, positive means that many
UTF-8 bytes; trailing NULs are stripped. The payload is taken by Python
slicing, so a short buffer truncates instead of raising. -/
def readString (data : List Nat) (off : Nat) : Option (List Char × Nat) :=
  match readI32 data off with
  | none => none
  | some (strlen, off1) =>
    if strlen = 0 then some ([], off1)
    else if strlen < 0 then
      let nbytes := (-strlen).toNat * 2
      let raw := (data.drop off1).take nbytes
      some (rstripNul (utf16leDecodeIgnore raw), off1 + nbytes)
    else
      let n := strlen.toNat
      let raw := (data.drop off1).take n
      some (rstripNul (utf8DecodeIgnore raw), off1 + n)

/-- Model of `_write_string`: empty writes length 0; otherwise length
`len(s)+1` (in characters), the UTF-8 bytes and one NUL. The
`UnicodeEncodeError` fallback to UTF-16 in the source can only trigger on
lone surrogates, which `Char` cannot represent, so it is dead here; the
`struct.error` of `_write_i32` on an overlong string is not caught and
propagates (`none`). -/
def writeString (s : List Char) : Option (List Nat) :=
  if s = [] then some [0, 0, 0, 0]
  else
    match writeI32 ((s.length : Int) + 1) with
    | none => none
    | some lenB => some (lenB ++ utf8Encode s ++ [0])

/-- Hexadecimal value of one character, as accepted by `bytes.fromhex`
(both cases); `none` for a non-hex character (raises `ValueError`). -/
def hexDigitVal (c : Char) : Option Nat :=
  if 48 ≤ c.toNat ∧ c.toNat ≤ 57 then some (c.toNat - 48)
  else if 97 ≤ c.toNat ∧ c.toNat ≤ 102 then some (c.toNat - 87)
  else if 65 ≤ c.toNat ∧ c.toNat ≤ 70 then some (c.toNat - 55)
  else none

/-- Pairwise hex parsing; `none` on an odd count or a non-hex character. -/
def fromHexPairs : List Char → Option (List Nat)
  | [] => some []
  | [_] => none
  | c1 :: c2 :: rest =>
    match hexDigitVal c1, hexDigitVal c2, fromHexPairs rest with
    | some v1, some v2, some bs => some ((v1 * 16 + v2) :: bs)
    | _, _, _ => none

/-- Model of `bytes.fromhex`: ASCII whitespace is ignored, then pairs of hex
digits are parsed. -/
def pyFromHex (l : List Char) : Option (List Nat) :=
  fromHexPairs (l.filter (fun c => ¬ (c.toNat = 32 ∨ c.toNat = 9 ∨
    c.toNat = 10 ∨ c.toNat = 13 ∨ c.toNat = 11 ∨ c.toNat = 12)))

/-- Lowercase hex character of a value below 16, as produced by
`bytes.hex()`. -/
def hexDigitChar (v : Nat) : Char :=
  if v < 10 then Char.ofNat (48 + v) else Char.ofNat (87 + v)

/-- Two lowercase hex characters of a byte, `bytes.hex()` per byte. -/
def byteToHex (b : Nat) : List Char := [hexDigitChar (b / 16), hexDigitChar (b % 16)]

/-- Model of `bytes.hex()`: lowercase hex rendering of a byte list. -/
def bytesToHex (bs : List Nat) : List Char := (bs.map byteToHex).flatten

/-- Canonical 8-4-4-4-12 rendering of 16 raw GUID bytes with the first three
groups byte-reversed, as built by `_read_guid` (and by the `Guid` struct
special case, whose byte-by-byte f-string produces the same text). -/
def guidCanonical (g : List Nat) : List Char :=
  bytesToHex (g.take 4).reverse ++ Char.ofNat 45 ::
    (bytesToHex ((g.drop 4).take 2).reverse ++ Char.ofNat 45 ::
      (bytesToHex ((g.drop 6).take 2).reverse ++ Char.ofNat 45 ::
        (bytesToHex ((g.drop 8).take 2) ++ Char.ofNat 45 ::
          bytesToHex ((g.drop 10).take 6))))

/-- Model of `_read_guid`: slice 16 bytes (possibly short, Python slicing
does not raise), render canonically, or return the empty string when the
slice was short; the offset advances by 16 regardless. -/
def readGuid (data : List Nat) (off : Nat) : List Char × Nat :=
  let g := (data.drop off).take 16
  (if g.length = 16 then guidCanonical g else [], off + 16)

/-- Model of Python `guid.split('-')`. -/
def splitDash : List Char → List (List Char)
  | [] => [[]]
  | c :: rest =>
    if c = Char.ofNat 45 then [] :: splitDash rest
    else
      match splitDash rest with
      | p :: ps => (c :: p) :: ps
      | [] => [[c]]

/-- Model of `_write_guid`: the 16 bytes appended for a GUID string — the
five dash-separated groups parsed from hex with the first three
byte-reversed, or 16 zero bytes when the shape is wrong (wrong part count,
non-hex characters, or wrong part byte lengths; all exceptions are caught). -/
def writeGuidBytes (s : List Char) : List Nat :=
  match splitDash s with
  | [p1, p2, p3, p4, p5] =>
    match pyFromHex p1, pyFromHex p2, pyFromHex p3, pyFromHex p4, pyFromHex p5 with
    | some b1, some b2, some b3, some b4, some b5 =>
      if b1.length = 4 ∧ b2.length = 2 ∧ b3.length = 2 ∧ b4.length = 2 ∧
          b5.length = 6 then
        b1.reverse ++ b2.reverse ++ b3.reverse ++ b4 ++ b5
      else List.replicate 16 0
    | _, _, _, _, _ => List.replicate 16 0
  | _ => List.replicate 16 0

/-- Model of `struct.unpack_from('<q', ...)`: signed 64-bit little-endian. -/
def readI64 (data : List Nat) (off : Nat) : Option (Int × Nat) :=
  if off + 8 ≤ data.length then
    let n := leVal ((data.drop off).take 8)
    some (if n < 9223372036854775808 then (n : Int)
          else (n : Int) - 18446744073709551616, off + 8)
  else none

/-- Model of `struct.unpack_from('<Q', ...)`: unsigned 64-bit little-endian. -/
def readU64 (data : List Nat) (off : Nat) : Option (Nat × Nat) :=
  if off + 8 ≤ data.length then some (leVal ((data.drop off).take 8), off + 8)
  else none

/-- Eight-byte little-endian rendering of a value below 2^64. -/
def toLE8 (n : Nat) : List Nat :=
  toLE4 (n % 4294967296) ++ toLE4 (n / 4294967296)

/-- Model of `struct.pack('<q', int(v))`: raises out of signed 64-bit range. -/
def writeI64 (v : Int) : Option (List Nat) :=
  if -9223372036854775808 ≤ v ∧ v < 9223372036854775808 then
    some (toLE8 ((v % 18446744073709551616).toNat))
  else none

/-- Model of `struct.pack('<Q', int(v))`: raises out of unsigned 64-bit range. -/
def writeU64 (v : Nat) : Option (List Nat) :=
  if v < 18446744073709551616 then some (toLE8 v) else none

mutual

/-- Values held by an `ArrayProperty`, mirroring the dynamic type of the
Python `_values` attribute: a `bytes` object (inner `ByteProperty` and the
unknown-inner fallback), or a list of strings / i32s / properties / f32 bit
patterns. -/
inductive ArrayValues where
  | rawBytes (bs : List Nat)
  | strs (vs : List (List Char))
  | ints (vs : List Int)
  | structs (vs : List UProp)
  | floats (vs : List (List Nat))

/-- The tagged property sum, one constructor per `Property` subclass of the
source; every constructor carries the common `(name, tag, size)` record.
Float/double values are raw little-endian byte lists (bit-level model). -/
inductive UProp where
  | arrayP (name : List Char) (tag : Nat) (size : Nat) (innerType : List Char)
      (arraySize : Nat) (values : ArrayValues)
  | boolP (name : List Char) (tag : Nat) (size : Nat) (value : Bool)
  | byteP (name : List Char) (tag : Nat) (size : Nat) (enumName : List Char)
      (value : Sum Nat (List Char))
  | doubleP (name : List Char) (tag : Nat) (size : Nat) (raw : List Nat)
  | floatP (name : List Char) (tag : Nat) (size : Nat) (raw : List Nat)
  | int64P (name : List Char) (tag : Nat) (size : Nat) (value : Int)
  | intP (name : List Char) (tag : Nat) (size : Nat) (value : Int) (intTag : Nat)
  | mapP (name : List Char) (tag : Nat) (size : Nat) (keyType : List Char)
      (valueType : List Char) (mapSize : Nat) (raw : List Nat)
  | nameP (name : List Char) (tag : Nat) (size : Nat) (value : List Char)
  | objectP (name : List Char) (tag : Nat) (size : Nat) (value : List Char)
  | strP (name : List Char) (tag : Nat) (size : Nat) (value : List Char)
  | structP (name : List Char) (tag : Nat) (size : Nat) (structType : List Char)
      (guid : List Char) (fields : List UProp)
  | textP (name : List Char) (tag : Nat) (size : Nat) (value : List Nat)
  | uint64P (name : List Char) (tag : Nat) (size : Nat) (value : Nat)

end

/-- Model of `BoolProperty.from_bytes`: asserts `prop_size == 0`, reads the
value byte (`bool(...)` of it), then asserts a NUL separator. -/
def boolFromBytes (name : List Char) (size tag : Nat) (data : List Nat)
    (off : Nat) : Option (UProp × Nat) :=
  if size = 0 then
    match data[off]? with
    | none => none
    | some b =>
      match data[off + 1]? with
      | some 0 => some (.boolP name tag size (b != 0), off + 2)
      | _ => none
  else none

/-- Model of `ByteProperty.from_bytes`: enum-name string, NUL, then one raw
byte when `prop_size == 1` and an FString otherwise. -/
def byteFromBytes (name : List Char) (size tag : Nat) (data : List Nat)
    (off : Nat) : Option (UProp × Nat) := do
  let (enumName, off1) ← readString data off
  match data[off1]? with
  | some 0 =>
    if size = 1 then
      match data[off1 + 1]? with
      | some b => some (.byteP name tag size enumName (Sum.inl b), off1 + 2)
      | none => none
    else do
      let (v, off2) ← readString data (off1 + 1)
      some (.byteP name tag size enumName (Sum.inr v), off2)
  | _ => none

/-- Model of `DoubleProperty.from_bytes`: asserts `prop_size == 8`, eight raw
bytes (bit-level float model). -/
def doubleFromBytes (name : List Char) (size tag : Nat) (data : List Nat)
    (off : Nat) : Option (UProp × Nat) :=
  if size = 8 ∧ off + 8 ≤ data.length then
    some (.doubleP name tag size ((data.drop off).take 8), off + 8)
  else none

/-- Model of `FloatProperty.from_bytes`: asserts `prop_size == 4`, four raw
bytes (bit-level float model). -/
def floatFromBytes (name : List Char) (size tag : Nat) (data : List Nat)
    (off : Nat) : Option (UProp × Nat) :=
  if size = 4 ∧ off + 4 ≤ data.length then
    some (.floatP name tag size ((data.drop off).take 4), off + 4)
  else none

/-- Model of `Int64Property.from_bytes`: asserts `prop_size == 8`. -/
def int64FromBytes (name : List Char) (size tag : Nat) (data : List Nat)
    (off : Nat) : Option (UProp × Nat) :=
  if size = 8 then
    match readI64 data off with
    | some (v, off1) => some (.int64P name tag size v, off1)
    | none => none
  else none

/-- Model of `IntProperty.from_bytes`: asserts `prop_size == 4`, reads the
i32, then the preserved-verbatim trailing byte. -/
def intFromBytes (name : List Char) (size tag : Nat) (data : List Nat)
    (off : Nat) : Option (UProp × Nat) :=
  if size = 4 then
    match readI32 data off with
    | some (v, off1) =>
      match data[off1]? with
      | some b => some (.intP name tag size v b, off1 + 1)
      | none => none
    | none => none
  else none

/-- Model of `MapProperty.from_bytes`: key/value type strings, NUL, u32
entry count, an opaque `prop_size - 5` byte payload (Nat subtraction: the
Python cursor arithmetic agrees whenever `prop_size ≥ 5`, the only sizes a
well-formed record can carry), then a NUL. -/
def mapFromBytes (name : List Char) (size tag : Nat) (data : List Nat)
    (off : Nat) : Option (UProp × Nat) := do
  let (keyType, off1) ← readString data off
  let (valueType, off2) ← readString data off1
  match data[off2]? with
  | some 0 =>
    match readU32 data (off2 + 1) with
    | some (mapSize, off3) =>
      let raw := (data.drop off3).take (size - 5)
      let off4 := off3 + (size - 5)
      match data[off4]? with
      | some 0 => some (.mapP name tag size keyType valueType mapSize raw, off4 + 1)
      | _ => none
    | none => none
  | _ => none

/-- Model of `NameProperty.from_bytes`: NUL, FString, then the assertion
`len(value) + 4 + 1 == prop_size` (the `+ 1` is unconditional, unlike
`StrProperty`). -/
def nameFromBytes (name : List Char) (size tag : Nat) (data : List Nat)
    (off : Nat) : Option (UProp × Nat) :=
  match data[off]? with
  | some 0 =>
    match readString data (off + 1) with
    | some (v, off1) =>
      if v.length + 4 + 1 = size then some (.nameP name tag size v, off1) else none
    | none => none
  | _ => none

/-- Model of `ObjectProperty.from_bytes`: same layout and assertion as
`NameProperty`. -/
def objectFromBytes (name : List Char) (size tag : Nat) (data : List Nat)
    (off : Nat) : Option (UProp × Nat) :=
  match data[off]? with
  | some 0 =>
    match readString data (off + 1) with
    | some (v, off1) =>
      if v.length + 4 + 1 = size then some (.objectP name tag size v, off1) else none
    | none => none
  | _ => none

/-- Model of `StrProperty.from_bytes`: NUL, FString, then the assertion
`prop_size == len(value) + 4 + (1 if value else 0)`. -/
def strFromBytes (name : List Char) (size tag : Nat) (data : List Nat)
    (off : Nat) : Option (UProp × Nat) :=
  match data[off]? with
  | some 0 =>
    match readString data (off + 1) with
    | some (v, off1) =>
      if size = v.length + 4 + (if v = [] then 0 else 1) then
        some (.strP name tag size v, off1)
      else none
    | none => none
  | _ => none

/-- Model of `TextProperty.from_bytes`: `prop_size` opaque bytes, then the
offset simply skips one more byte (no check is performed on it). -/
def textFromBytes (name : List Char) (size tag : Nat) (data : List Nat)
    (off : Nat) : Option (UProp × Nat) :=
  some (.textP name tag size ((data.drop off).take size), off + size + 1)

/-- Model of `UInt64Property.from_bytes`: asserts `prop_size == 8`. -/
def uint64FromBytes (name : List Char) (size tag : Nat) (data : List Nat)
    (off : Nat) : Option (UProp × Nat) :=
  if size = 8 then
    match readU64 data off with
    | some (v, off1) => some (.uint64P name tag size v, off1)
    | none => none
  else none

/-- Reading `array_size` FStrings (`Str`/`Name` inner types). -/
def readStringsN : Nat → List Nat → Nat → Option (List (List Char) × Nat)
  | 0, _, off => some ([], off)
  | n + 1, data, off =>
    match readString data off with
    | none => none
    | some (v, off1) =>
      match readStringsN n data off1 with
      | none => none
      | some (vs, off2) => some (v :: vs, off2)

/-- Reading `array_size` i32s (`Int` inner type). -/
def readIntsN : Nat → List Nat → Nat → Option (List Int × Nat)
  | 0, _, off => some ([], off)
  | n + 1, data, off =>
    match readI32 data off with
    | none => none
    | some (v, off1) =>
      match readIntsN n data off1 with
      | none => none
      | some (vs, off2) => some (v :: vs, off2)

/-- Reading `array_size` f32 bit patterns (`Float` inner type);
`struct.unpack_from('<f', ...)` raises on a short buffer. -/
def readFloatsN : Nat → List Nat → Nat → Option (List (List Nat) × Nat)
  | 0, _, off => some ([], off)
  | n + 1, data, off =>
    if off + 4 ≤ data.length then
      match readFloatsN n data (off + 4) with
      | none => none
      | some (vs, off2) => some ((data.drop off).take 4 :: vs, off2)
    else none

mutual

/-- Model of `_read_property`: name FString; `"None"` or empty name yields
no property (the cursor stops after the name); otherwise type FString, u32
size, u32 tag and the kind-dispatched body. The fuel bounds recursion depth
and loop length; `none` covers both a Python exception and fuel exhaustion. -/
def readProperty : Nat → List Nat → Nat → Option (Option UProp × Nat)
  | 0, _, _ => none
  | fuel + 1, data, off =>
    match readString data off with
    | none => none
    | some (propName, off1) =>
      if propName = "None".toList ∨ propName = [] then some (none, off1)
      else
        match readString data off1 with
        | none => none
        | some (propType, off2) =>
          match readU32 data off2 with
          | none => none
          | some (size, off3) =>
            match readU32 data off3 with
            | none => none
            | some (tag, off4) =>
              match createProperty fuel propName propType size tag data off4 with
              | none => none
              | some (p, off5) => some (some p, off5)
termination_by structural fuel _ _ => fuel

/-- Model of `PropertyFactory.create_property`: dispatch on the type string
over the fourteen `Property` subclasses; unknown kinds raise `ValueError`. -/
def createProperty : Nat → List Char → List Char → Nat → Nat → List Nat → Nat →
    Option (UProp × Nat)
  | 0, _, _, _, _, _, _ => none
  | fuel + 1, name, ptype, size, tag, data, off =>
    if ptype = "ArrayProperty".toList then arrayFromBytes fuel name size tag data off
    else if ptype = "BoolProperty".toList then boolFromBytes name size tag data off
    else if ptype = "ByteProperty".toList then byteFromBytes name size tag data off
    else if ptype = "DoubleProperty".toList then doubleFromBytes name size tag data off
    else if ptype = "FloatProperty".toList then floatFromBytes name size tag data off
    else if ptype = "Int64Property".toList then int64FromBytes name size tag data off
    else if ptype = "IntProperty".toList then intFromBytes name size tag data off
    else if ptype = "MapProperty".toList then mapFromBytes name size tag data off
    else if ptype = "NameProperty".toList then nameFromBytes name size tag data off
    else if ptype = "ObjectProperty".toList then objectFromBytes name size tag data off
    else if ptype = "StrProperty".toList then strFromBytes name size tag data off
    else if ptype = "StructProperty".toList then structFromBytes fuel name size tag data off
    else if ptype = "TextProperty".toList then textFromBytes name size tag data off
    else if ptype = "UInt64Property".toList then uint64FromBytes name size tag data off
    else none
termination_by structural fuel _ _ _ _ _ _ => fuel

/-- Model of `ArrayProperty.from_bytes`: inner-type FString, NUL, u32 count,
then the inner-type-dispatched element payload. For inner `ByteProperty` the
source slices `prop_size` bytes into `values` but advances the cursor by
`prop_size - 4` (Nat subtraction; the Python cursor agrees whenever
`offset + prop_size ≥ 4`, which holds at every reachable call site). -/
def arrayFromBytes : Nat → List Char → Nat → Nat → List Nat → Nat →
    Option (UProp × Nat)
  | 0, _, _, _, _, _ => none
  | fuel + 1, name, size, tag, data, off =>
    match readString data off with
    | none => none
    | some (innerType, off1) =>
      match data[off1]? with
      | some 0 =>
        match readU32 data (off1 + 1) with
        | none => none
        | some (arraySize, off3) =>
          if innerType = "ByteProperty".toList then
            some (.arrayP name tag size innerType arraySize
              (.rawBytes ((data.drop off3).take size)), off3 + size - 4)
          else if innerType = "StrProperty".toList ∨ innerType = "NameProperty".toList then
            match readStringsN arraySize data off3 with
            | none => none
            | some (vs, off4) =>
              some (.arrayP name tag size innerType arraySize (.strs vs), off4)
          else if innerType = "IntProperty".toList then
            match readIntsN arraySize data off3 with
            | none => none
            | some (vs, off4) =>
              some (.arrayP name tag size innerType arraySize (.ints vs), off4)
          else if innerType = "StructProperty".toList then
            match readPropsUntil fuel data off3 (off3 + size) with
            | none => none
            | some (vs, off4) =>
              some (.arrayP name tag size innerType arraySize (.structs vs), off4)
          else if innerType = "FloatProperty".toList then
            match readFloatsN arraySize data off3 with
            | none => none
            | some (vs, off4) =>
              some (.arrayP name tag size innerType arraySize (.floats vs), off4)
          else
            some (.arrayP name tag size innerType arraySize
              (.rawBytes ((data.drop off3).take size)), off3 + size)
      | _ => none
termination_by structural fuel _ _ _ _ _ => fuel

/-- Model of `StructProperty.from_bytes`: struct-type FString, 16-byte GUID,
NUL; `Quat`/`Vector`/`DateTime`/`Guid` short-circuit with their fixed
layouts (asserting the expected size), anything else recurses into a
property sequence bounded by `offset + prop_size` and the `"None"`
sentinel. -/
def structFromBytes : Nat → List Char → Nat → Nat → List Nat → Nat →
    Option (UProp × Nat)
  | 0, _, _, _, _, _ => none
  | fuel + 1, name, size, tag, data, off =>
    match readString data off with
    | none => none
    | some (stype, off1) =>
      let (guid, off2) := readGuid data off1
      match data[off2]? with
      | some 0 =>
        let off3 := off2 + 1
        if stype = "Quat".toList then
          if size = 16 ∧ off3 + 16 ≤ data.length then
            some (.structP name tag size stype guid
              [.floatP ("X".toList) 0 4 ((data.drop off3).take 4),
               .floatP ("Y".toList) 0 4 ((data.drop (off3 + 4)).take 4),
               .floatP ("Z".toList) 0 4 ((data.drop (off3 + 8)).take 4),
               .floatP ("W".toList) 0 4 ((data.drop (off3 + 12)).take 4)], off3 + 16)
          else none
        else if stype = "Vector".toList then
          if size = 12 ∧ off3 + 12 ≤ data.length then
            some (.structP name tag size stype guid
              [.floatP ("X".toList) 0 4 ((data.drop off3).take 4),
               .floatP ("Y".toList) 0 4 ((data.drop (off3 + 4)).take 4),
               .floatP ("Z".toList) 0 4 ((data.drop (off3 + 8)).take 4)], off3 + 12)
          else none
        else if stype = "DateTime".toList then
          if size = 8 then
            match readI64 data off3 with
            | some (ticks, off4) =>
              some (.structP name tag size stype guid
                [.int64P ("Ticks".toList) 0 8 ticks], off4)
            | none => none
          else none
        else if stype = "Guid".toList then
          if size = 16 ∧ off3 + 16 ≤ data.length then
            some (.structP name tag size stype guid
              [.strP ("Value".toList) 0 41 (guidCanonical ((data.drop off3).take 16))],
              off3 + 16)
          else none
        else
          match readPropsUntil fuel data off3 (off3 + size) with
          | none => none
          | some (fields, off4) =>
            some (.structP name tag size stype guid fields, off4)
      | _ => none
termination_by structural fuel _ _ _ _ _ => fuel

/-- The shared body loop of `StructProperty.from_bytes` and
`ArrayProperty.from_bytes` over `StructProperty`: read properties while the
cursor is before `end_offset`, breaking at the first `"None"`/empty-name
record. -/
def readPropsUntil : Nat → List Nat → Nat → Nat → Option (List UProp × Nat)
  | 0, _, _, _ => none
  | fuel + 1, data, off, endOff =>
    if off < endOff then
      match readProperty fuel data off with
      | none => none
      | some (none, off1) => some ([], off1)
      | some (some p, off1) =>
        match readPropsUntil fuel data off1 endOff with
        | none => none
        | some (ps, off2) => some (p :: ps, off2)
    else some ([], off)
termination_by structural fuel _ _ _ => fuel

end

/-- Model of `_read_properties`, the top-level loop of `read_savefile`:
unlike the nested loops it does NOT stop at a sentinel — a record that
yields no property (name `"None"` or empty) is skipped with `continue` and
parsing proceeds until the cursor reaches `end_offset`. -/
def readPropertiesTop : Nat → List Nat → Nat → Nat → Option (List UProp × Nat)
  | 0, _, _, _ => none
  | fuel + 1, data, off, endOff =>
    if off < endOff then
      match readProperty (fuel + 1) data off with
      | none => none
      | some (none, off1) => readPropertiesTop fuel data off1 endOff
      | some (some p, off1) =>
        match readPropertiesTop fuel data off1 endOff with
        | none => none
        | some (ps, off2) => some (p :: ps, off2)
    else some ([], off)

/-- The property's `name` attribute. -/
def propName : UProp → List Char
  | .arrayP n _ _ _ _ _ => n
  | .boolP n _ _ _ => n
  | .byteP n _ _ _ _ => n
  | .doubleP n _ _ _ => n
  | .floatP n _ _ _ => n
  | .int64P n _ _ _ => n
  | .intP n _ _ _ _ => n
  | .mapP n _ _ _ _ _ _ => n
  | .nameP n _ _ _ => n
  | .objectP n _ _ _ => n
  | .strP n _ _ _ => n
  | .structP n _ _ _ _ _ => n
  | .textP n _ _ _ => n
  | .uint64P n _ _ _ => n

/-- The property's `tag` attribute. -/
def propTag : UProp → Nat
  | .arrayP _ t _ _ _ _ => t
  | .boolP _ t _ _ => t
  | .byteP _ t _ _ _ => t
  | .doubleP _ t _ _ => t
  | .floatP _ t _ _ => t
  | .int64P _ t _ _ => t
  | .intP _ t _ _ _ => t
  | .mapP _ t _ _ _ _ _ => t
  | .nameP _ t _ _ => t
  | .objectP _ t _ _ => t
  | .strP _ t _ _ => t
  | .structP _ t _ _ _ _ => t
  | .textP _ t _ _ => t
  | .uint64P _ t _ _ => t

/-- The property's `size` attribute as used by `_write_property`: the stored
`_size`, except that `BoolProperty.size` always returns 0 and
`FloatProperty.size` always returns 4 (overridden accessors). -/
def propSizeField : UProp → Nat
  | .arrayP _ _ s _ _ _ => s
  | .boolP _ _ _ _ => 0
  | .byteP _ _ s _ _ => s
  | .doubleP _ _ s _ => s
  | .floatP _ _ _ _ => 4
  | .int64P _ _ s _ => s
  | .intP _ _ s _ _ => s
  | .mapP _ _ s _ _ _ _ => s
  | .nameP _ _ s _ => s
  | .objectP _ _ s _ => s
  | .strP _ _ s _ => s
  | .structP _ _ s _ _ _ => s
  | .textP _ _ s _ => s
  | .uint64P _ _ s _ => s

/-- The Python class name of the property, which `_write_property` emits as
the wire type string. -/
def className : UProp → List Char
  | .arrayP _ _ _ _ _ _ => "ArrayProperty".toList
  | .boolP _ _ _ _ => "BoolProperty".toList
  | .byteP _ _ _ _ _ => "ByteProperty".toList
  | .doubleP _ _ _ _ => "DoubleProperty".toList
  | .floatP _ _ _ _ => "FloatProperty".toList
  | .int64P _ _ _ _ => "Int64Property".toList
  | .intP _ _ _ _ _ => "IntProperty".toList
  | .mapP _ _ _ _ _ _ _ => "MapProperty".toList
  | .nameP _ _ _ _ => "NameProperty".toList
  | .objectP _ _ _ _ => "ObjectProperty".toList
  | .strP _ _ _ _ => "StrProperty".toList
  | .structP _ _ _ _ _ _ => "StructProperty".toList
  | .textP _ _ _ _ => "TextProperty".toList
  | .uint64P _ _ _ _ => "UInt64Property".toList

/-- Writing a list of strings, as the `Str`/`Name` array writer does. -/
def writeStringsList : List (List Char) → Option (List Nat)
  | [] => some []
  | v :: vs =>
    match writeString v, writeStringsList vs with
    | some b, some bs => some (b ++ bs)
    | _, _ => none

/-- Writing a list of i32s, as the `Int` array writer does. -/
def writeIntsList : List Int → Option (List Nat)
  | [] => some []
  | v :: vs =>
    match writeI32 v, writeIntsList vs with
    | some b, some bs => some (b ++ bs)
    | _, _ => none

mutual

/-- Model of `_write_property`: name FString, class-name FString, u32 size
(via the possibly-overridden `size` accessor), u32 tag, then the body. -/
def writeProperty : Nat → UProp → Option (List Nat)
  | 0, _ => none
  | fuel + 1, p =>
    match writeString (propName p), writeString (className p) with
    | some nameB, some typeB =>
      match propToBytes fuel p with
      | some bodyB =>
        some (nameB ++ typeB ++ writeU32 (propSizeField p) ++
          writeU32 (propTag p) ++ bodyB)
      | none => none
    | _, _ => none
termination_by structural fuel _ => fuel

/-- Model of the per-kind `to_bytes` bodies. States that the reader can
never produce (for instance array values of the wrong dynamic type, on
which the Python writer would raise or serialize `str()` reprs) are
modelled as failure. -/
def propToBytes : Nat → UProp → Option (List Nat)
  | 0, _ => none
  | fuel + 1, p =>
    match p with
    | .arrayP _ _ _ innerType arraySize values =>
      match writeString innerType, writeI32 (arraySize : Int) with
      | some innerB, some cntB =>
        match arrayValuesToBytes fuel innerType values with
        | some tail => some (innerB ++ [0] ++ cntB ++ tail)
        | none => none
      | _, _ => none
    | .boolP _ _ _ v => some [if v then 1 else 0, 0]
    | .byteP _ _ size _ value =>
      -- `ByteProperty.to_bytes` never re-emits the enum-name string it read
      if size = 1 then
        match value with
        | Sum.inl b => some [0, b % 256]
        | Sum.inr _ => none
      else
        match value with
        | Sum.inr s =>
          match writeString s with
          | some sB => some ([0] ++ sB)
          | none => none
        | Sum.inl b =>
          match writeString ((toString b).toList) with
          | some sB => some ([0] ++ sB)
          | none => none
    | .doubleP _ _ _ raw => some raw
    | .floatP _ _ _ raw => some raw
    | .int64P _ _ _ v => writeI64 v
    | .intP _ _ _ v intTag =>
      match writeI32 v with
      | some b => some (b ++ [intTag])
      | none => none
    | .mapP _ _ _ keyType valueType mapSize raw =>
      match writeString keyType, writeString valueType with
      | some kB, some vB => some (kB ++ vB ++ [0] ++ writeU32 mapSize ++ raw ++ [0])
      | _, _ => none
    | .nameP _ _ _ v =>
      match writeString v with
      | some sB => some ([0] ++ sB)
      | none => none
    | .objectP _ _ _ v =>
      match writeString v with
      | some sB => some ([0] ++ sB)
      | none => none
    | .strP _ _ _ v =>
      match writeString v with
      | some sB => some ([0] ++ sB)
      | none => none
    | .structP _ _ _ stype guid fields =>
      match writeString stype with
      | none => none
      | some tB =>
        let base := tB ++ writeGuidBytes guid ++ [0]
        if stype = "Quat".toList then
          match fields with
          | [.floatP _ _ _ r1, .floatP _ _ _ r2, .floatP _ _ _ r3, .floatP _ _ _ r4] =>
            some (base ++ r1 ++ r2 ++ r3 ++ r4)
          | _ => none
        else if stype = "Vector".toList then
          match fields with
          | [.floatP _ _ _ r1, .floatP _ _ _ r2, .floatP _ _ _ r3] =>
            some (base ++ r1 ++ r2 ++ r3)
          | _ => none
        else
          match writePropsList fuel fields with
          | none => none
          | some fB =>
            match writeString ("None".toList) with
            | some sentB =>
              some (base ++ fB ++ (if fields.length > 0 then sentB else []))
            | none => none
    | .textP _ _ _ v => some (v ++ [0])
    | .uint64P _ _ _ v => writeU64 v
termination_by structural fuel _ => fuel

/-- Model of `ArrayProperty.to_bytes` element emission, dispatched on the
stored inner-type string; the struct branch appends an unconditional
`"None"` sentinel. -/
def arrayValuesToBytes : Nat → List Char → ArrayValues → Option (List Nat)
  | 0, _, _ => none
  | fuel + 1, innerType, values =>
    if innerType = "ByteProperty".toList then
      match values with
      | .rawBytes bs => some bs
      | .ints vs => some (vs.map (fun v => ((v % 256).toNat)))
      | _ => none
    else if innerType = "StrProperty".toList ∨ innerType = "NameProperty".toList then
      match values with
      | .strs vs => writeStringsList vs
      | _ => none
    else if innerType = "IntProperty".toList then
      match values with
      | .ints vs => writeIntsList vs
      | _ => none
    else if innerType = "StructProperty".toList then
      match values with
      | .structs vs =>
        match writePropsList fuel vs, writeString ("None".toList) with
        | some b, some sentB => some (b ++ sentB)
        | _, _ => none
      | _ => none
    else if innerType = "FloatProperty".toList then
      match values with
      | .floats vs => some vs.flatten
      | _ => none
    else
      match values with
      | .rawBytes bs => some bs
      | _ => none
termination_by structural fuel _ _ => fuel

/-- Writing a list of properties in order (the shared `for` loops). -/
def writePropsList : Nat → List UProp → Option (List Nat)
  | 0, _ => none
  | _ + 1, [] => some []
  | fuel + 1, p :: ps =>
    match writeProperty fuel p, writePropsList fuel ps with
    | some b, some bs => some (b ++ bs)
    | _, _ => none
termination_by structural fuel _ => fuel

end

/-- Model of `_write_properties`: every property, then the unconditional
top-level `"None"` sentinel. -/
def writeProperties (fuel : Nat) (props : List UProp) : Option (List Nat) :=
  match writePropsList fuel props, writeString ("None".toList) with
  | some b, some sentB => some (b ++ sentB)
  | _, _ => none

/-- The `engine_version` sub-record of the header. -/
structure EngineVersion where
  major : Nat
  minor : Nat
  patch : Nat
  changelist : Nat
  branch : List Char
  deriving DecidableEq

/-- The header dict built by `_read_gvas_header`: magic is always "GVAS";
`fileVersions` is either the dual UE4/UE5 pair or the single
`package_file_version` (discriminated at decode time). -/
structure GvasHeader where
  saveGameVersion : Int
  fileVersions : Sum (Int × Int) Int
  engineVersion : EngineVersion
  customVersionsFormat : Int
  customVersions : List (List Char × Int)
  saveGameClassName : List Char
  deriving DecidableEq

/-- The allowed-character set of `_plausible_class_name`. -/
def allowedClassNameChars : List Char :=
  "abcdefghijklmnopqrstuvwxyzABCDEFGHIJKLMNOPQRSTUVWXYZ0123456789_./\\:-$[]()<>@!%+,' \"".toList

/-- Model of `_plausible_class_name`: length between 1 and 2048 and at least
75% of the characters from the allowed set. The float test
`ok / max(1, len) < 0.75` is modelled exactly by `4 * ok < 3 * len`: with
`len ≤ 2048` the true ratio is at least `1/8192` away from 3/4 whenever it
differs, far beyond double rounding error, and `max(1, len) = len` in this
branch. The marker scan of the source returns `True` on both branches, so
it imposes no further condition. -/
def plausibleClassName (s : List Char) : Bool :=
  if ¬ (1 ≤ s.length ∧ s.length ≤ 2048) then false
  else if (s.countP (fun c => allowedClassNameChars.contains c)) * 4 < s.length * 3 then
    false
  else true

/-- Reading `cnt` custom-version entries (`GUID`, i32 version). -/
def readCustomVersions (data : List Nat) : Nat → Nat →
    Option (List (List Char × Int) × Nat)
  | 0, off => some ([], off)
  | n + 1, off =>
    let (guid, off1) := readGuid data off
    match readI32 data off1 with
    | none => none
    | some (ver, off2) =>
      match readCustomVersions data n off2 with
      | none => none
      | some (rest, off3) => some ((guid, ver) :: rest, off3)

/-- Model of `_read_gvas_header` (the packaged core): magic, save-game
version, dual-vs-single file-version heuristic (peek two u16s after the
candidate dual layout; both ≤ 50 means dual), engine version, then a single
custom-versions layout — fmt, count (guarded), `(GUID, i32)` pairs — and the
class name, asserted plausible. -/
def readGvasHeader (data : List Nat) (off0 : Nat) : Option (GvasHeader × Nat) :=
  if (data.drop off0).take 4 = MAGIC then
    match readI32 data (off0 + 4) with
    | none => none
    | some (sgv, off1) =>
      match readI32 data off1 with
      | none => none
      | some (ue4, offT1) =>
        match readI32 data offT1 with
        | none => none
        | some (ue5, offT2) =>
          match readU16 data offT2, readU16 data (offT2 + 2) with
          | some (majT, _), some (minT, _) =>
            let dual := majT ≤ 50 ∧ minT ≤ 50
            let fileVersions : Sum (Int × Int) Int :=
              if dual then Sum.inl (ue4, ue5) else Sum.inr ue4
            let off2 := if dual then offT2 else off1 + 4
            match readU16 data off2 with
            | none => none
            | some (major, off3) =>
              match readU16 data off3 with
              | none => none
              | some (minor, off4) =>
                match readU16 data off4 with
                | none => none
                | some (patch, off5) =>
                  match readU32 data off5 with
                  | none => none
                  | some (changelist, off6) =>
                    match readString data off6 with
                    | none => none
                    | some (branch, off7) =>
                      match readI32 data off7 with
                      | none => none
                      | some (fmt, off8) =>
                        match readI32 data off8 with
                        | none => none
                        | some (cnt, off9) =>
                          if 0 ≤ cnt ∧ cnt ≤ 10000 ∧ 0 ≤ fmt ∧ fmt ≤ 10 then
                            match readCustomVersions data cnt.toNat off9 with
                            | none => none
                            | some (cvs, off10) =>
                              match readString data off10 with
                              | none => none
                              | some (cls, off11) =>
                                if plausibleClassName cls then
                                  some (⟨sgv, fileVersions,
                                    ⟨major, minor, patch, changelist, branch⟩,
                                    fmt, cvs, cls⟩, off11)
                                else none
                          else none
          | _, _ => none
  else none

/-- Writing the custom-version entries (`GUID` bytes then i32 version). -/
def writeCustomVersions : List (List Char × Int) → Option (List Nat)
  | [] => some []
  | (g, v) :: rest =>
    match writeI32 v, writeCustomVersions rest with
    | some vB, some restB => some (writeGuidBytes g ++ vB ++ restB)
    | _, _ => none

/-- Model of `_write_gvas_header`: magic, save-game version, dual or single
file versions (whichever variant the header holds), engine version, then the
canonical Variant-A custom versions (fmt, count, pairs) and the class name. -/
def writeGvasHeader (h : GvasHeader) : Option (List Nat) :=
  match writeI32 h.saveGameVersion with
  | none => none
  | some sgvB =>
    let fvB? : Option (List Nat) :=
      match h.fileVersions with
      | Sum.inl (u4, u5) =>
        match writeI32 u4, writeI32 u5 with
        | some a, some b => some (a ++ b)
        | _, _ => none
      | Sum.inr pv => writeI32 pv
    match fvB? with
    | none => none
    | some fvB =>
      match writeString h.engineVersion.branch with
      | none => none
      | some branchB =>
        match writeI32 h.customVersionsFormat,
            writeI32 (h.customVersions.length : Int) with
        | some fmtB, some cntB =>
          match writeCustomVersions h.customVersions with
          | none => none
          | some cvsB =>
            match writeString h.saveGameClassName with
            | none => none
            | some clsB =>
              some (MAGIC ++ sgvB ++ fvB ++
                writeU16 h.engineVersion.major ++ writeU16 h.engineVersion.minor ++
                writeU16 h.engineVersion.patch ++ writeU32 h.engineVersion.changelist ++
                branchB ++ fmtB ++ cntB ++ cvsB ++ clsB)
        | _, _ => none

/-- Abstract decompression codecs. The actual zlib/DEFLATE/gzip/LZ4/zstd
algorithms are external library calls; the envelope is verified relative to
arbitrary codec behaviour. `lz4D`/`zstdD` are `none` when the optional
package is absent (`lz4f is None` / `zstd is None`). -/
structure Codecs where
  zlibD : List Nat → Except (List Char) (List Nat)
  deflateD : List Nat → Except (List Char) (List Nat)
  gzipD : List Nat → Except (List Char) (List Nat)
  lz4D : Option (List Nat → Except (List Char) (List Nat))
  zstdD : Option (List Nat → Except (List Char) (List Nat))

/-- The `_try_*` wrappers: swallow the codec's failure into `none`.
`_try_gzip`'s magic pre-check falls through to the same call, so it
collapses to one attempt. -/
def tryOpt (f : List Nat → Except (List Char) (List Nat)) (raw : List Nat) :
    Option (List Nat) :=
  match f raw with
  | .ok b => some b
  | .error _ => none

/-- Model of `_try_lz4`: `None` when the package is absent. -/
def tryLz4 (C : Codecs) (raw : List Nat) : Option (List Nat) :=
  match C.lz4D with
  | none => none
  | some f => tryOpt f raw

/-- Model of `_try_zstd`. -/
def tryZstd (C : Codecs) (raw : List Nat) : Option (List Nat) :=
  match C.zstdD with
  | none => none
  | some f => tryOpt f raw

/-- Model of `decompress_payload`: explicit methods attempt exactly their
codec (raising a `DecompressionError` naming it on failure), `none` returns
the input unchanged, and anything else runs the `auto` heuristic — magic
sniffs for gzip/zstd/LZ4, then zlib, raw DEFLATE, gzip, LZ4 and zstd in
order. -/
def decompressPayload (C : Codecs) (raw : List Nat) (method : List Char) :
    Except (List Char) (List Nat) :=
  let m := method.map Char.toLower
  if m = "none".toList then .ok raw
  else if m = "zlib".toList then
    match C.zlibD raw with
    | .ok b => .ok b
    | .error e => .error ("zlib failed: ".toList ++ e)
  else if m = "deflate".toList then
    match C.deflateD raw with
    | .ok b => .ok b
    | .error e => .error ("deflate failed: ".toList ++ e)
  else if m = "gzip".toList then
    match C.gzipD raw with
    | .ok b => .ok b
    | .error e => .error ("gzip failed: ".toList ++ e)
  else if m = "lz4".toList then
    match C.lz4D with
    | none => .error ("lz4 not available. Install 'lz4' package.".toList)
    | some f =>
      match f raw with
      | .ok b => .ok b
      | .error e => .error ("lz4 failed: ".toList ++ e)
  else if m = "zstd".toList then
    match C.zstdD with
    | none => .error ("zstd not available. Install 'zstandard' package.".toList)
    | some f =>
      match f raw with
      | .ok b => .ok b
      | .error e => .error ("zstd failed: ".toList ++ e)
  else
    match (if 2 ≤ raw.length ∧ raw.take 2 = [31, 139] then tryOpt C.gzipD raw
           else none) with
    | some out => .ok out
    | none =>
      match (if 4 ≤ raw.length ∧ raw.take 4 = [40, 181, 47, 253] then tryZstd C raw
             else none) with
      | some out => .ok out
      | none =>
        match (if 4 ≤ raw.length ∧ raw.take 4 = [4, 34, 77, 24] then tryLz4 C raw
               else none) with
        | some out => .ok out
        | none =>
          match tryOpt C.zlibD raw with
          | some out => .ok out
          | none =>
            match tryOpt C.deflateD raw with
            | some out => .ok out
            | none =>
              match tryOpt C.gzipD raw with
              | some out => .ok out
              | none =>
                match tryLz4 C raw with
                | some out => .ok out
                | none =>
                  match tryZstd C raw with
                  | some out => .ok out
                  | none =>
                    .error ("Could not decompress payload. Try --compression none|zlib|deflate|gzip|lz4|zstd.".toList)

/-- The in-memory `SaveFile` dataclass: header plus property list. -/
structure SaveFile where
  header : GvasHeader
  properties : List UProp

/-- Python `data.startswith(MAGIC)`. -/
def startsWithMagic (data : List Nat) : Bool := decide (data.take 4 = MAGIC)

/-- Model of `data.find(MAGIC, 0, 256)`: first index of a full match inside
the first 256 bytes. -/
def findMagicFrom (data : List Nat) : Nat → Nat → Option Nat
  | 0, _ => none
  | fuel + 1, i =>
    if i + 4 ≤ data.length ∧ i + 4 ≤ 256 then
      if (data.drop i).take 4 = MAGIC then some i else findMagicFrom data fuel (i + 1)
    else none

/-- Model of `read_savefile` on a loaded byte buffer: when the buffer does
not start with the magic, run the envelope (adopting its output only when
that output starts with the magic, and ignoring a `DecompressionError`);
then locate the magic at 0 or within the first 256 bytes; decode the header
and the top-level property loop to the end of the buffer. -/
def readSavefile (C : Codecs) (fuel : Nat) (data0 : List Nat)
    (method : List Char) : Option SaveFile :=
  let data :=
    if ¬ startsWithMagic data0 then
      match decompressPayload C data0 method with
      | .ok cand => if startsWithMagic cand then cand else data0
      | .error _ => data0
    else data0
  match (if startsWithMagic data then some 0 else findMagicFrom data 256 0) with
  | none => none
  | some off =>
    match readGvasHeader data off with
    | none => none
    | some (header, off1) =>
      match readPropertiesTop fuel data off1 data.length with
      | none => none
      | some (props, _) => some ⟨header, props⟩

/-- Model of `write_savefile` as the byte buffer it persists: header, then
properties with the top-level sentinel. -/
def writeSavefile (fuel : Nat) (s : SaveFile) : Option (List Nat) :=
  match writeGvasHeader s.header, writeProperties fuel s.properties with
  | some hB, some pB => some (hB ++ pB)
  | _, _ => none

/-- One custom-version entry of the standalone `parse_gvas_header`
(src/uesave.py): GUID, version and, for variants B/D, a friendly name. -/
structure CVEntry where
  guid : List Char
  version : Int
  friendly : Option (List Char)
  deriving DecidableEq

/-- What a successful custom-versions attempt commits to the header:
`custom_versions_format` (variants A/B only), the `custom_versions` list
(absent for the class-name-only fallback E), the class name, and the final
cursor. -/
structure CVCommit where
  fmt : Option Int
  customs : Option (List CVEntry)
  clsName : List Char
  endOff : Nat
  deriving DecidableEq

/-- Reading `cnt` `(GUID, i32)` pairs (variants A and C). -/
def readCVPairs (data : List Nat) : Nat → Nat → Option (List CVEntry × Nat)
  | 0, off => some ([], off)
  | n + 1, off =>
    let (guid, off1) := readGuid data off
    match readI32 data off1 with
    | none => none
    | some (ver, off2) =>
      match readCVPairs data n off2 with
      | none => none
      | some (rest, off3) => some (⟨guid, ver, none⟩ :: rest, off3)

/-- Reading `cnt` `(GUID, i32, FString)` triples (variants B and D). -/
def readCVTriples (data : List Nat) : Nat → Nat → Option (List CVEntry × Nat)
  | 0, off => some ([], off)
  | n + 1, off =>
    let (guid, off1) := readGuid data off
    match readI32 data off1 with
    | none => none
    | some (ver, off2) =>
      match readString data off2 with
      | none => none
      | some (fname, off3) =>
        match readCVTriples data n off3 with
        | none => none
        | some (rest, off4) => some (⟨guid, ver, some fname⟩ :: rest, off4)

/-- Variant A of `parse_gvas_header`: `fmt:i32, count:i32, (GUID, ver)×count,
name`, with the `0 ≤ count ≤ 10000` and `0 ≤ fmt ≤ 10` guards; `none` when
any read raises or the trailing class name is implausible. -/
def attemptA (data : List Nat) (base : Nat) : Option CVCommit :=
  match readI32 data base with
  | none => none
  | some (fmt, o1) =>
    match readI32 data o1 with
    | none => none
    | some (cnt, o2) =>
      if 0 ≤ cnt ∧ cnt ≤ 10000 ∧ 0 ≤ fmt ∧ fmt ≤ 10 then
        match readCVPairs data cnt.toNat o2 with
        | none => none
        | some (customs, o3) =>
          match readString data o3 with
          | none => none
          | some (cls, o4) =>
            if plausibleClassName cls then some ⟨some fmt, some customs, cls, o4⟩
            else none
      else none

/-- Variant B: like A but each entry also carries a friendly-name FString. -/
def attemptB (data : List Nat) (base : Nat) : Option CVCommit :=
  match readI32 data base with
  | none => none
  | some (fmt, o1) =>
    match readI32 data o1 with
    | none => none
    | some (cnt, o2) =>
      if 0 ≤ cnt ∧ cnt ≤ 10000 ∧ 0 ≤ fmt ∧ fmt ≤ 10 then
        match readCVTriples data cnt.toNat o2 with
        | none => none
        | some (customs, o3) =>
          match readString data o3 with
          | none => none
          | some (cls, o4) =>
            if plausibleClassName cls then some ⟨some fmt, some customs, cls, o4⟩
            else none
      else none

/-- Variant C: no leading fmt — `count:i32, (GUID, ver)×count, name`. -/
def attemptC (data : List Nat) (base : Nat) : Option CVCommit :=
  match readI32 data base with
  | none => none
  | some (cnt, o1) =>
    if 0 ≤ cnt ∧ cnt ≤ 10000 then
      match readCVPairs data cnt.toNat o1 with
      | none => none
      | some (customs, o2) =>
        match readString data o2 with
        | none => none
        | some (cls, o3) =>
          if plausibleClassName cls then some ⟨none, some customs, cls, o3⟩
          else none
    else none

/-- Variant D: no fmt, entries with friendly names. -/
def attemptD (data : List Nat) (base : Nat) : Option CVCommit :=
  match readI32 data base with
  | none => none
  | some (cnt, o1) =>
    if 0 ≤ cnt ∧ cnt ≤ 10000 then
      match readCVTriples data cnt.toNat o1 with
      | none => none
      | some (customs, o2) =>
        match readString data o2 with
        | none => none
        | some (cls, o3) =>
          if plausibleClassName cls then some ⟨none, some customs, cls, o3⟩
          else none
    else none

/-- The custom-versions section of `parse_gvas_header` (src/uesave.py):
sequential attempts A, B, C, D guarded by the `parsed_ok` flag, then the
class-name-only fallback E whose `read_string` is NOT inside a
`try`/`except` (its failure escapes the function: outer `none`); E commits
only when plausible, otherwise the header is returned without a commitment
(`some none`). -/
def parseCustomVersions (data : List Nat) (base : Nat) : Option (Option CVCommit) :=
  match attemptA data base with
  | some r => some (some r)
  | none =>
    match attemptB data base with
    | some r => some (some r)
    | none =>
      match attemptC data base with
      | some r => some (some r)
      | none =>
        match attemptD data base with
        | some r => some (some r)
        | none =>
          match readString data base with
          | none => none
          | some (cls, off) =>
            if plausibleClassName cls then some (some ⟨none, none, cls, off⟩)
            else some none

/-! Concrete wire inputs used by the scenario theorems. -/

/-- The S6 BoolProperty record: name "X", type "BoolProperty", size 0,
tag 0, value byte 01, separator 00. -/
def boolRecBytes : List Nat :=
  [2, 0, 0, 0, 88, 0] ++
  [13, 0, 0, 0, 66, 111, 111, 108, 80, 114, 111, 112, 101, 114, 116, 121, 0] ++
  [0, 0, 0, 0] ++ [0, 0, 0, 0] ++ [1, 0]

/-- An ArrayProperty record with inner ByteProperty: name "A", declared
size 6, count 2, two payload bytes AA BB, followed by four distinctive
bytes 01 02 03 04 that belong to whatever comes after the record. -/
def arrayByteRecBytes : List Nat :=
  [2, 0, 0, 0, 65, 0] ++
  [14, 0, 0, 0, 65, 114, 114, 97, 121, 80, 114, 111, 112, 101, 114, 116, 121, 0] ++
  [6, 0, 0, 0] ++ [0, 0, 0, 0] ++
  [13, 0, 0, 0, 66, 121, 116, 101, 80, 114, 111, 112, 101, 114, 116, 121, 0] ++
  [0] ++ [2, 0, 0, 0] ++ [170, 187] ++ [1, 2, 3, 4]

/-- The wire bytes of the `"None"` sentinel FString. -/
def noneSentinelBytes : List Nat := [5, 0, 0, 0, 78, 111, 110, 101, 0]

/-- A BoolProperty record named "Y" (value true). -/
def boolRecYBytes : List Nat :=
  [2, 0, 0, 0, 89, 0] ++
  [13, 0, 0, 0, 66, 111, 111, 108, 80, 114, 111, 112, 101, 114, 116, 121, 0] ++
  [0, 0, 0, 0] ++ [0, 0, 0, 0] ++ [1, 0]

/-- A top-level property stream holding a Bool record, the `"None"`
sentinel, and then another Bool record. -/
def pastSentinelBytes : List Nat := boolRecBytes ++ noneSentinelBytes ++ boolRecYBytes

/-- A minimal GVAS header: save-game version 2, dual file versions
(522, 0), engine 5.1.1 changelist 0 branch "", custom versions (fmt 3,
0 entries), class name "/Game/A.B_C". -/
def minHeaderBytes : List Nat :=
  [71, 86, 65, 83] ++ [2, 0, 0, 0] ++ [10, 2, 0, 0] ++ [0, 0, 0, 0] ++
  [5, 0, 1, 0, 1, 0] ++ [0, 0, 0, 0] ++ [0, 0, 0, 0] ++
  [3, 0, 0, 0] ++ [0, 0, 0, 0] ++
  [12, 0, 0, 0, 47, 71, 97, 109, 101, 47, 65, 46, 66, 95, 67, 0]

/-- A complete save file: the minimal header, one Array-of-Byte property
(declared size 6, payload AA BB), and the top-level sentinel. -/
def c1FileBytes : List Nat :=
  minHeaderBytes ++
  ([2, 0, 0, 0, 65, 0] ++
   [14, 0, 0, 0, 65, 114, 114, 97, 121, 80, 114, 111, 112, 101, 114, 116, 121, 0] ++
   [6, 0, 0, 0] ++ [0, 0, 0, 0] ++
   [13, 0, 0, 0, 66, 121, 116, 101, 80, 114, 111, 112, 101, 114, 116, 121, 0] ++
   [0] ++ [2, 0, 0, 0] ++ [170, 187]) ++
  noneSentinelBytes

/-- The in-memory `SaveFile` that `read_savefile` produces from
`c1FileBytes`: note the array's stored payload is six bytes long — the two
real payload bytes followed by the first four bytes of the sentinel. -/
def c1Save : SaveFile :=
  ⟨⟨2, Sum.inl (522, 0), ⟨5, 1, 1, 0, []⟩, 3, [], "/Game/A.B_C".toList⟩,
   [.arrayP ("A".toList) 0 6 ("ByteProperty".toList) 2
      (.rawBytes [170, 187, 5, 0, 0, 0])]⟩

/-- The buffer `write_savefile` persists for `c1Save`: four stray bytes
`05 00 00 00` now sit between the array payload and the sentinel. -/
def c1WrittenBytes : List Nat :=
  minHeaderBytes ++
  ([2, 0, 0, 0, 65, 0] ++
   [14, 0, 0, 0, 65, 114, 114, 97, 121, 80, 114, 111, 112, 101, 114, 116, 121, 0] ++
   [6, 0, 0, 0] ++ [0, 0, 0, 0] ++
   [13, 0, 0, 0, 66, 121, 116, 101, 80, 114, 111, 112, 101, 114, 116, 121, 0] ++
   [0] ++ [2, 0, 0, 0] ++ [170, 187, 5, 0, 0, 0]) ++
  noneSentinelBytes

/-- Evaluation rule of `read_savefile` on a buffer that already starts with
the GVAS magic: the envelope and the magic search are skipped. -/
theorem readSavefile_magic_eq (C : Codecs) (fuel : Nat) (data : List Nat)
    (method : List Char) (h : startsWithMagic data = true) :
    readSavefile C fuel data method =
      match readGvasHeader data 0 with
      | none => none
      | some (header, off1) =>
        match readPropertiesTop fuel data off1 data.length with
        | none => none
        | some (props, _) => some ⟨header, props⟩ := by
  unfold readSavefile
  rw [if_neg (by simp [h])]
  simp only [h, eq_self_iff_true, if_true]

set_option maxRecDepth 40000 in
/-- C1: the read→write→read round trip fails on `c1FileBytes`:
`read_savefile` accepts the file and yields `c1Save`, `write_savefile`
re-emits it as `c1WrittenBytes`, but reading that buffer back aborts —
because `ArrayProperty.from_bytes` stored `prop_size` payload bytes while
advancing the cursor by `prop_size - 4`, the writer re-emitted four bytes
of the sentinel inside the array payload and the re-read stream misparses.
This refutes the claim that `read(write(s)) == s` for every `s` obtained
from `read`. -/
theorem c1_roundtrip_broken (C : Codecs) :
    readSavefile C 50 c1FileBytes ("auto".toList) = some c1Save ∧
    writeSavefile 50 c1Save = some c1WrittenBytes ∧
    readSavefile C 50 c1WrittenBytes ("auto".toList) = none := by
  have hs : startsWithMagic c1FileBytes = true := rfl
  have hlen : c1FileBytes.length = 119 := rfl
  have h1 : readGvasHeader c1FileBytes 0 = some (c1Save.header, 54) := rfl
  have h2 : readPropertiesTop 50 c1FileBytes 54 119 = some (c1Save.properties, 119) := rfl
  have hw : writeSavefile 50 c1Save = some c1WrittenBytes := rfl
  have hs2 : startsWithMagic c1WrittenBytes = true := rfl
  have hlen2 : c1WrittenBytes.length = 123 := rfl
  have h3 : readGvasHeader c1WrittenBytes 0 = some (c1Save.header, 54) := rfl
  have h4 : readPropertiesTop 50 c1WrittenBytes 54 123 = none := rfl
  refine ⟨?_, hw, ?_⟩
  · rw [readSavefile_magic_eq C 50 c1FileBytes ("auto".toList) hs]
    simp only [hlen, h1, h2]
  · rw [readSavefile_magic_eq C 50 c1WrittenBytes ("auto".toList) hs2]
    simp only [hlen2, h3, h4]

/-- C4: decoding `arrayByteRecBytes` (declared size 6, count 2, payload
AA BB) consumes exactly `prop_size - 4 = 2` payload bytes past the count
field — the final cursor is 56, with the count field ending at 54 — but the
stored element payload is `prop_size = 6` bytes long, grabbing the four
bytes 01 02 03 04 that lie beyond the record; the claim (and spec) say the
stored payload has length `prop_size - 4`. -/

theorem c4_array_byte_slice :
    readProperty 10 arrayByteRecBytes 0 =
      some (some (.arrayP ("A".toList) 0 6 ("ByteProperty".toList) 2
        (.rawBytes [170, 187, 1, 2, 3, 4])), 54 + (6 - 4)) ∧
    List.length [170, 187, 1, 2, 3, 4] = 6 := by
  refine ⟨rfl, rfl⟩

/-- C7 counterexample: the writer's byte-identical re-emission of the S6
BoolProperty record is 33 bytes, not the 15 bytes the claim states. -/
theorem c7_claim_false :
    writeProperty 10 (.boolP ("X".toList) 0 0 true) = some boolRecBytes ∧
    boolRecBytes.length ≠ 15 := by
  refine ⟨rfl, by decide⟩

/-- C7 amended: the S6 record decodes to a Bool property named "X" with
value true (size field 0, tag 0), and the writer re-emits exactly the same
33 bytes (the two FString headers, the two zero u32s, the value byte and
the separator). -/
theorem c7_bool_roundtrip :
    readProperty 10 boolRecBytes 0 = some (some (.boolP ("X".toList) 0 0 true), 33) ∧
    writeProperty 10 (.boolP ("X".toList) 0 0 true) = some boolRecBytes ∧
    boolRecBytes.length = 33 := by
  refine ⟨rfl, rfl, rfl⟩

/-- C5 counterexample: on a top-level stream holding a Bool record, the
`"None"` sentinel, and a second Bool record, `_read_properties` returns
BOTH properties — the record after the sentinel is parsed and returned,
refuting the claim that no further properties are parsed after the
sentinel. -/
theorem c5_claim_false :
    readPropertiesTop 10 pastSentinelBytes 0 pastSentinelBytes.length =
      some ([.boolP ("X".toList) 0 0 true, .boolP ("Y".toList) 0 0 true], 75) := by
  rfl

/-- C6 counterexample: a `NameProperty` record with an empty string value
and declared size 4 — name "N", type "NameProperty", size 4, tag 0, body
`00` plus an empty FString — is rejected: `NameProperty.from_bytes`
asserts `len(value) + 4 + 1 == prop_size` with the `+ 1` unconditional, so
the whole decode aborts, while the claim says such a record is accepted. -/
theorem c6_claim_false :
    readProperty 10
      ([2, 0, 0, 0, 78, 0] ++
       [13, 0, 0, 0, 78, 97, 109, 101, 80, 114, 111, 112, 101, 114, 116, 121, 0] ++
       [4, 0, 0, 0] ++ [0, 0, 0, 0] ++ [0] ++ [0, 0, 0, 0]) 0 = none ∧
    nameFromBytes ("N".toList) 4 0 [0, 0, 0, 0, 0] 0 = none := by
  refine ⟨rfl, rfl⟩

/-- C5 (amended): the top-level property loop does not stop at the `"None"`
sentinel — a record whose name reads `"None"` yields no property and the
loop continues parsing at the position right after the name, until the
cursor reaches `end_offset`; records after a sentinel are therefore still
parsed and returned. -/
theorem c5_top_level_skips_sentinel (fuel : Nat) (data : List Nat)
    (off endOff off1 : Nat) (hlt : off < endOff)
    (hs : readString data off = some ("None".toList, off1)) :
    readPropertiesTop (fuel + 1) data off endOff =
      readPropertiesTop fuel data off1 endOff := by
  simp only [readPropertiesTop, if_pos hlt, readProperty, hs]
  simp

/-- Witness for `c5_top_level_skips_sentinel` at a concrete stream: a
sentinel followed by a Bool record. -/
theorem c5_top_level_skips_sentinel_witness :
    0 < (noneSentinelBytes ++ boolRecYBytes).length ∧
    readString (noneSentinelBytes ++ boolRecYBytes) 0 = some ("None".toList, 9) ∧
    readPropertiesTop 11 (noneSentinelBytes ++ boolRecYBytes) 0
        (noneSentinelBytes ++ boolRecYBytes).length =
      readPropertiesTop 10 (noneSentinelBytes ++ boolRecYBytes) 9
        (noneSentinelBytes ++ boolRecYBytes).length :=
  ⟨by decide, rfl,
    c5_top_level_skips_sentinel 10 (noneSentinelBytes ++ boolRecYBytes) 0
      (noneSentinelBytes ++ boolRecYBytes).length 9 (by decide) rfl⟩

/-- C10: a record whose name FString reads as the empty string is treated
by `_read_property` exactly like the `"None"` sentinel: no property is
returned and only the name is consumed, at every nesting level (the same
`return None` serves the nested loops and the top-level loop). -/
theorem c10_empty_name_terminator (fuel : Nat) (data : List Nat) (off off1 : Nat)
    (h : readString data off = some ([], off1) ∨
         readString data off = some ("None".toList, off1)) :
    readProperty (fuel + 1) data off = some (none, off1) := by
  rcases h with h | h <;> simp only [readProperty, h] <;> simp

/-- Witness for `c10_empty_name_terminator`: the four zero bytes read as an
empty-name record and terminate with no property. -/
theorem c10_empty_name_terminator_witness :
    readProperty 1 [0, 0, 0, 0] 0 = some (none, 4) :=
  c10_empty_name_terminator 0 [0, 0, 0, 0] 0 4 (Or.inl rfl)

/-- C9: for every explicit compression method, `decompress_payload`
attempts exactly that codec — `none` returns the input unchanged, and a
failing codec yields a `DecompressionError` naming that codec, with no
fallback to any other codec (the result depends only on the selected
codec's outcome). -/
theorem c9_explicit_codec_dispatch (C : Codecs) (raw : List Nat) :
    decompressPayload C raw ("none".toList) = .ok raw ∧
    decompressPayload C raw ("zlib".toList) =
      (match C.zlibD raw with
       | .ok b => .ok b
       | .error e => .error ("zlib failed: ".toList ++ e)) ∧
    decompressPayload C raw ("deflate".toList) =
      (match C.deflateD raw with
       | .ok b => .ok b
       | .error e => .error ("deflate failed: ".toList ++ e)) ∧
    decompressPayload C raw ("gzip".toList) =
      (match C.gzipD raw with
       | .ok b => .ok b
       | .error e => .error ("gzip failed: ".toList ++ e)) ∧
    decompressPayload C raw ("lz4".toList) =
      (match C.lz4D with
       | none => .error ("lz4 not available. Install 'lz4' package.".toList)
       | some f =>
         match f raw with
         | .ok b => .ok b
         | .error e => .error ("lz4 failed: ".toList ++ e)) ∧
    decompressPayload C raw ("zstd".toList) =
      (match C.zstdD with
       | none => .error ("zstd not available. Install 'zstandard' package.".toList)
       | some f =>
         match f raw with
         | .ok b => .ok b
         | .error e => .error ("zstd failed: ".toList ++ e)) := by
  refine ⟨rfl, rfl, rfl, rfl, rfl, rfl⟩

/-- A StrProperty record with an empty value and declared size 4: name "S",
type "StrProperty", size 4, tag 0, body `00` plus an empty FString. -/
def c6StrRecBytes : List Nat :=
  [2, 0, 0, 0, 83, 0] ++
  [12, 0, 0, 0, 83, 116, 114, 80, 114, 111, 112, 101, 114, 116, 121, 0] ++
  [4, 0, 0, 0] ++ [0, 0, 0, 0] ++ [0] ++ [0, 0, 0, 0]

/-- C6 (amended): every successfully decoded `StrProperty` satisfies
`size == len(value) + 4 + (1 if non-empty else 0)` — in particular an empty
value with size 4 is accepted — while `NameProperty` and `ObjectProperty`
enforce `size == len(value) + 4 + 1` with the `+ 1` unconditional, so an
empty Name/Object requires size 5; any violation returns no property and
aborts the decode. -/
theorem c6_size_invariants :
    (∀ (name : List Char) (size tag : Nat) (data : List Nat) (off : Nat)
        (v : List Char) (off1 : Nat),
      strFromBytes name size tag data off = some (.strP name tag size v, off1) →
      size = v.length + 4 + (if v = [] then 0 else 1)) ∧
    (∀ (name : List Char) (size tag : Nat) (data : List Nat) (off : Nat)
        (v : List Char) (off1 : Nat),
      nameFromBytes name size tag data off = some (.nameP name tag size v, off1) →
      size = v.length + 4 + 1) ∧
    (∀ (name : List Char) (size tag : Nat) (data : List Nat) (off : Nat)
        (v : List Char) (off1 : Nat),
      objectFromBytes name size tag data off = some (.objectP name tag size v, off1) →
      size = v.length + 4 + 1) ∧
    readProperty 10 c6StrRecBytes 0 = some (some (.strP ("S".toList) 0 4 []), 35) := by
  refine ⟨?_, ?_, ?_, rfl⟩
  · intro name size tag data off v off1 h
    unfold strFromBytes at h
    split at h
    · split at h
      · rename_i v' off1' hread
        by_cases hc : size = v'.length + 4 + (if v' = [] then 0 else 1)
        · rw [if_pos hc] at h
          injection h with hpair
          injection hpair with hp hoff
          injection hp with e1 e2 e3 e4
          subst e4
          exact hc
        · rw [if_neg hc] at h
          exact absurd h (by simp)
      · exact absurd h (by simp)
    · exact absurd h (by simp)
  · intro name size tag data off v off1 h
    unfold nameFromBytes at h
    split at h
    · split at h
      · rename_i v' off1' hread
        by_cases hc : v'.length + 4 + 1 = size
        · rw [if_pos hc] at h
          injection h with hpair
          injection hpair with hp hoff
          injection hp with e1 e2 e3 e4
          subst e4
          omega
        · rw [if_neg hc] at h
          exact absurd h (by simp)
      · exact absurd h (by simp)
    · exact absurd h (by simp)
  · intro name size tag data off v off1 h
    unfold objectFromBytes at h
    split at h
    · split at h
      · rename_i v' off1' hread
        by_cases hc : v'.length + 4 + 1 = size
        · rw [if_pos hc] at h
          injection h with hpair
          injection hpair with hp hoff
          injection hp with e1 e2 e3 e4
          subst e4
          omega
        · rw [if_neg hc] at h
          exact absurd h (by simp)
      · exact absurd h (by simp)
    · exact absurd h (by simp)

/-- Witness for `c6_size_invariants`: the size formula instantiated at the
accepted empty-value StrProperty with size 4. -/
theorem c6_size_invariants_witness :
    strFromBytes ("S".toList) 4 0 [0, 0, 0, 0, 0] 0 =
      some (.strP ("S".toList) 0 4 [], 5) ∧
    4 = List.length ([] : List Char) + 4 + (if ([] : List Char) = [] then 0 else 1) :=
  ⟨rfl, (c6_size_invariants).1 ("S".toList) 4 0 [0, 0, 0, 0, 0] 0 [] 5 rfl⟩

/-- A successful variant-A attempt passed the class-name plausibility check. -/
lemma attemptA_plausible (data : List Nat) (base : Nat) (r : CVCommit)
    (h : attemptA data base = some r) : plausibleClassName r.clsName = true := by
  unfold attemptA at h
  repeat' split at h
  all_goals try (injection h with h'; subst h'; assumption)
  all_goals injection h

/-- A successful variant-B attempt passed the class-name plausibility check. -/
lemma attemptB_plausible (data : List Nat) (base : Nat) (r : CVCommit)
    (h : attemptB data base = some r) : plausibleClassName r.clsName = true := by
  unfold attemptB at h
  repeat' split at h
  all_goals try (injection h with h'; subst h'; assumption)
  all_goals injection h

/-- A successful variant-C attempt passed the class-name plausibility check. -/
lemma attemptC_plausible (data : List Nat) (base : Nat) (r : CVCommit)
    (h : attemptC data base = some r) : plausibleClassName r.clsName = true := by
  unfold attemptC at h
  repeat' split at h
  all_goals try (injection h with h'; subst h'; assumption)
  all_goals injection h

/-- A successful variant-D attempt passed the class-name plausibility check. -/
lemma attemptD_plausible (data : List Nat) (base : Nat) (r : CVCommit)
    (h : attemptD data base = some r) : plausibleClassName r.clsName = true := by
  unfold attemptD at h
  repeat' split at h
  all_goals try (injection h with h'; subst h'; assumption)
  all_goals injection h

/-- C3: the custom-versions decoder of `parse_gvas_header` attempts
variants A (fmt, count, pairs, name), B (adds friendly names), C (no fmt),
D (no fmt, friendly names) and E (class name only) in exactly that order,
committing to the first attempt that succeeds — and an attempt succeeds
only when its trailing class name passes the plausibility check. -/
theorem c3_variant_cascade (data : List Nat) (base : Nat) :
    (∀ r, attemptA data base = some r →
      parseCustomVersions data base = some (some r)) ∧
    (∀ r, attemptA data base = none → attemptB data base = some r →
      parseCustomVersions data base = some (some r)) ∧
    (∀ r, attemptA data base = none → attemptB data base = none →
      attemptC data base = some r →
      parseCustomVersions data base = some (some r)) ∧
    (∀ r, attemptA data base = none → attemptB data base = none →
      attemptC data base = none → attemptD data base = some r →
      parseCustomVersions data base = some (some r)) ∧
    (∀ cls off, attemptA data base = none → attemptB data base = none →
      attemptC data base = none → attemptD data base = none →
      readString data base = some (cls, off) →
      (plausibleClassName cls = true →
        parseCustomVersions data base = some (some ⟨none, none, cls, off⟩)) ∧
      (plausibleClassName cls = false →
        parseCustomVersions data base = some none)) ∧
    (∀ r, parseCustomVersions data base = some (some r) →
      plausibleClassName r.clsName = true) := by
  refine ⟨?_, ?_, ?_, ?_, ?_, ?_⟩
  · intro r h
    unfold parseCustomVersions
    rw [h]
  · intro r hA hB
    unfold parseCustomVersions
    rw [hA, hB]
  · intro r hA hB hC
    unfold parseCustomVersions
    rw [hA, hB, hC]
  · intro r hA hB hC hD
    unfold parseCustomVersions
    rw [hA, hB, hC, hD]
  · intro cls off hA hB hC hD hS
    constructor
    · intro hp
      unfold parseCustomVersions
      simp only [hA, hB, hC, hD, hS]
      rw [if_pos hp]
    · intro hp
      unfold parseCustomVersions
      simp only [hA, hB, hC, hD, hS]
      rw [if_neg (by simp [hp])]
  · intro r h
    unfold parseCustomVersions at h
    rcases hA : attemptA data base with _ | rA
    case some =>
      simp only [hA] at h
      injection h with h1
      injection h1 with h2
      subst h2
      exact attemptA_plausible data base _ hA
    rcases hB : attemptB data base with _ | rB
    case some =>
      simp only [hA, hB] at h
      injection h with h1
      injection h1 with h2
      subst h2
      exact attemptB_plausible data base _ hB
    rcases hC : attemptC data base with _ | rC
    case some =>
      simp only [hA, hB, hC] at h
      injection h with h1
      injection h1 with h2
      subst h2
      exact attemptC_plausible data base _ hC
    rcases hD : attemptD data base with _ | rD
    case some =>
      simp only [hA, hB, hC, hD] at h
      injection h with h1
      injection h1 with h2
      subst h2
      exact attemptD_plausible data base _ hD
    simp only [hA, hB, hC, hD] at h
    rcases hS : readString data base with _ | ⟨cls, off⟩
    · simp only [hS] at h
      exact Option.noConfusion h
    · simp only [hS] at h
      by_cases hp : plausibleClassName cls = true
      · rw [if_pos hp] at h
        injection h with h1
        injection h1 with h2
        subst h2
        exact hp
      · rw [if_neg hp] at h
        injection h with h1
        exact absurd h1 (by simp)

/-- The bytes of a variant-A custom-versions record: fmt 3, zero entries,
class name "/Game/A.B_C". -/
def c3DataA : List Nat :=
  [3, 0, 0, 0] ++ [0, 0, 0, 0] ++
  [12, 0, 0, 0, 47, 71, 97, 109, 101, 47, 65, 46, 66, 95, 67, 0]

/-- Witness for `c3_variant_cascade`: on `c3DataA` variant A succeeds and
the cascade commits to it. -/
theorem c3_variant_cascade_witness :
    parseCustomVersions c3DataA 0 =
      some (some ⟨some 3, some [], "/Game/A.B_C".toList, 24⟩) :=
  (c3_variant_cascade c3DataA 0).1 _ rfl

/-- Little-endian reassembly inverts the four-byte rendering. -/
lemma leVal_toLE4 (n : Nat) (h : n < 4294967296) : leVal (toLE4 n) = n := by
  unfold leVal toLE4
  simp only [List.foldr_cons, List.foldr_nil]
  omega

/-- Reading an i32 back from its little-endian bytes (nonnegative case). -/
lemma readI32_toLE4 (n : Nat) (rest : List Nat) (h : n < 2147483648) :
    readI32 (toLE4 n ++ rest) 0 = some ((n : Int), 4) := by
  unfold readI32
  rw [if_pos (by simp [toLE4])]
  have htake : ((toLE4 n ++ rest).drop 0).take 4 = toLE4 n := by
    rw [List.drop_zero]
    exact List.take_left' (by simp [toLE4])
  rw [htake, leVal_toLE4 n (by omega)]
  simp [h]

/-- Writing a nonnegative i32 below 2^31 yields its little-endian bytes. -/
lemma writeI32_ofNat (n : Nat) (h : n < 2147483648) :
    writeI32 (n : Int) = some (toLE4 n) := by
  unfold writeI32
  rw [if_pos ⟨by omega, by exact_mod_cast h⟩]
  have hm : ((n : Int) % 4294967296) = (n : Int) :=
    Int.emod_eq_of_lt (by omega) (by exact_mod_cast (by omega : n < 4294967296))
  rw [hm]
  simp

/-- UTF-8 encoding of an ASCII string is the list of its code points. -/
lemma utf8Encode_ascii (l : List Char) (h : ∀ c ∈ l, c.toNat < 128) :
    utf8Encode l = l.map Char.toNat := by
  induction l with
  | nil => rfl
  | cons c t ih =>
    have hc := h c (List.mem_cons_self c t)
    unfold utf8Encode
    simp only [List.map_cons, List.flatten_cons]
    rw [show utf8EncodeChar c = [c.toNat] by unfold utf8EncodeChar; rw [if_pos hc]]
    have ih2 := ih (fun x hx => h x (List.mem_cons_of_mem c hx))
    unfold utf8Encode at ih2
    rw [ih2]
    rfl

/-- The auxiliary decoder returns nothing on the empty list, any fuel. -/
lemma utf8DecodeIgnoreAux_nil (fuel : Nat) : utf8DecodeIgnoreAux fuel [] = [] := by
  cases fuel <;> rfl

/-- The auxiliary decoder on ASCII code points followed by a NUL byte. -/
lemma utf8DecodeIgnoreAux_ascii (l : List Char) :
    ∀ fuel, (∀ c ∈ l, c.toNat < 128) → l.length + 1 ≤ fuel →
    utf8DecodeIgnoreAux fuel (l.map Char.toNat ++ [0]) = l ++ [Char.ofNat 0] := by
  induction l with
  | nil =>
    intro fuel h hf
    match fuel, hf with
    | f + 1, _ =>
      show utf8DecodeIgnoreAux (f + 1) [0] = [Char.ofNat 0]
      simp only [utf8DecodeIgnoreAux]
      rw [if_pos (by omega), utf8DecodeIgnoreAux_nil]
  | cons c t ih =>
    intro fuel h hf
    have hc := h c (List.mem_cons_self c t)
    match fuel, hf with
    | f + 1, hf =>
      simp only [List.map_cons, List.cons_append, utf8DecodeIgnoreAux]
      rw [if_pos hc, Char.ofNat_toNat,
        ih f (fun x hx => h x (List.mem_cons_of_mem c hx))
          (by simp only [List.length_cons] at hf; omega)]

/-- UTF-8 decoding of ASCII code points followed by a NUL byte. -/
lemma utf8DecodeIgnore_ascii (l : List Char) (h : ∀ c ∈ l, c.toNat < 128) :
    utf8DecodeIgnore (l.map Char.toNat ++ [0]) = l ++ [Char.ofNat 0] := by
  unfold utf8DecodeIgnore
  exact utf8DecodeIgnoreAux_ascii l _ h (by simp)

/-- Stripping the single appended NUL from a string not ending in NUL. -/
lemma rstripNul_append_nul (l : List Char) (h : l.getLast? ≠ some (Char.ofNat 0)) :
    rstripNul (l ++ [Char.ofNat 0]) = l := by
  unfold rstripNul
  rw [List.reverse_append]
  cases hr : l.reverse with
  | nil =>
    have hl : l = [] := by simpa using congrArg List.reverse hr
    subst hl
    rfl
  | cons x t =>
    have hx : ¬ (x = Char.ofNat 0) := by
      intro hx
      apply h
      rw [← List.head?_reverse, hr, hx]
      rfl
    simp only [List.reverse_cons, List.reverse_nil, List.nil_append,
      List.singleton_append]
    rw [List.dropWhile_cons, if_pos (by simp), List.dropWhile_cons,
      if_neg (by simpa using hx), ← hr, List.reverse_reverse]

/-- C2 counterexample: the claimed universal round trip and the claimed
UTF-16 write shape both fail — `write_string("éé")` emits a length field of
3 (character count plus one) with a four-byte UTF-8 payload, and
`read_string` of those bytes consumes only three payload bytes, decoding
back `"é"`, not `"éé"`; moreover `write_string("é")` emits the UTF-8 bytes
`02 00 00 00 C3 A9 00`, not the claimed `-2` length with UTF-16LE payload. -/
theorem c2_claim_false :
    writeString ("éé".toList) = some [3, 0, 0, 0, 195, 169, 195, 169, 0] ∧
    readString [3, 0, 0, 0, 195, 169, 195, 169, 0] 0 = some ("é".toList, 7) ∧
    ("é".toList : List Char) ≠ "éé".toList ∧
    writeString ("é".toList) ≠ some [254, 255, 255, 255, 233, 0, 0, 0] := by
  refine ⟨rfl, rfl, by decide, by decide⟩

set_option maxRecDepth 4000 in
/-- C2 (amended): `read_string(write_string(s)) == s` holds for every ASCII
string (all code points below 128) that does not end in NUL, the empty
string included; `write_string("é")` emits length 2 with the UTF-8 payload
`C3 A9 00`; and `read_string` of the `-2`-length UTF-16LE bytes
`E9 00 00 00` does return `"é"`. -/
theorem c2_string_roundtrip_ascii :
    (∀ (s : List Char) (bs : List Nat),
      (∀ c ∈ s, c.toNat < 128) → s.getLast? ≠ some (Char.ofNat 0) →
      writeString s = some bs → readString bs 0 = some (s, bs.length)) ∧
    writeString ("é".toList) = some [2, 0, 0, 0, 195, 169, 0] ∧
    readString [254, 255, 255, 255, 233, 0, 0, 0] 0 = some ("é".toList, 8) := by
  refine ⟨?_, rfl, rfl⟩
  intro s bs hascii hlast hw
  by_cases hs : s = []
  · subst hs
    unfold writeString at hw
    simp only [if_pos rfl] at hw
    injection hw with hw
    subst hw
    rfl
  · unfold writeString at hw
    rw [if_neg hs] at hw
    rcases hwl : writeI32 ((s.length : Int) + 1) with _ | lenB
    · rw [hwl] at hw
      exact Option.noConfusion hw
    · rw [hwl] at hw
      have hw2 : lenB ++ utf8Encode s ++ [0] = bs := Option.some.inj hw
      have hlt : s.length + 1 < 2147483648 := by
        by_contra hge
        rw [writeI32, if_neg (by omega)] at hwl
        exact Option.noConfusion hwl
      have hlenB : lenB = toLE4 (s.length + 1) := by
        have h2 := writeI32_ofNat (s.length + 1) hlt
        rw [show ((s.length + 1 : Nat) : Int) = (s.length : Int) + 1 by push_cast; ring] at h2
        have h3 := h2.symm.trans hwl
        exact (Option.some.inj h3).symm
      subst hlenB
      subst hw2
      unfold readString
      rw [List.append_assoc, readI32_toLE4 (s.length + 1) _ hlt]
      dsimp only
      rw [if_neg (by omega), if_neg (by omega)]
      have hdrop : ((toLE4 (s.length + 1) ++ (utf8Encode s ++ [0])).drop 4) =
          utf8Encode s ++ [0] := List.drop_left' (by simp [toLE4])
      rw [hdrop]
      have henc : utf8Encode s = s.map Char.toNat := utf8Encode_ascii s hascii
      have htoNat : ((s.length + 1 : Nat) : Int).toNat = s.length + 1 := by simp
      rw [htoNat]
      have htake : (utf8Encode s ++ [0]).take (s.length + 1) = utf8Encode s ++ [0] :=
        List.take_of_length_le (by simp [henc])
      rw [htake, henc, utf8DecodeIgnore_ascii s hascii, rstripNul_append_nul s hlast]
      have hblen : (toLE4 (s.length + 1) ++ (List.map Char.toNat s ++ [0])).length =
          4 + (s.length + 1) := by
        simp [toLE4]
        omega
      rw [hblen]

/-- Witness for `c2_string_roundtrip_ascii`: the boundary scenario S2,
`write_string("Hi")` then `read_string`. -/
theorem c2_string_roundtrip_ascii_witness :
    writeString ("Hi".toList) = some [3, 0, 0, 0, 72, 105, 0] ∧
    readString [3, 0, 0, 0, 72, 105, 0] 0 = some ("Hi".toList, 7) := by
  refine ⟨rfl, ?_⟩
  have := (c2_string_roundtrip_ascii).1 ("Hi".toList) [3, 0, 0, 0, 72, 105, 0]
    (by decide) (by decide) rfl
  simpa using this

/-- Lowercase hexadecimal digit, the alphabet `bytes.hex()` emits. -/
def isLowerHexDigit (c : Char) : Bool :=
  decide ((48 ≤ c.toNat ∧ c.toNat ≤ 57) ∨ (97 ≤ c.toNat ∧ c.toNat ≤ 102))

/-- A canonical GUID string: five dash-separated groups of lowercase hex
digits with byte lengths 4-2-2-2-6 (character lengths 8-4-4-4-12) — the
exact shape `_read_guid` renders. -/
def isCanonicalGuid (s : List Char) : Bool :=
  match splitDash s with
  | [p1, p2, p3, p4, p5] =>
    decide (p1.length = 8 ∧ p2.length = 4 ∧ p3.length = 4 ∧ p4.length = 4 ∧
      p5.length = 12) &&
    (p1.all isLowerHexDigit && (p2.all isLowerHexDigit && (p3.all isLowerHexDigit &&
      (p4.all isLowerHexDigit && p5.all isLowerHexDigit))))
  | _ => false

/-- Joining string pieces with dashes, the inverse of `splitDash`. -/
def joinDash : List (List Char) → List Char
  | [] => []
  | [p] => p
  | p :: ps => p ++ Char.ofNat 45 :: joinDash ps

/-- `splitDash` never returns an empty list of pieces. -/
lemma splitDash_ne_nil : ∀ l : List Char, splitDash l ≠ []
  | [] => by simp [splitDash]
  | c :: rest => by
    unfold splitDash
    by_cases hc : c = Char.ofNat 45
    · rw [if_pos hc]
      simp
    · rw [if_neg hc]
      rcases h : splitDash rest with _ | ⟨p, ps⟩
      · simp
      · simp

/-- Rejoining the dash-split pieces recovers the original string. -/
lemma joinDash_splitDash : ∀ l : List Char, joinDash (splitDash l) = l
  | [] => rfl
  | c :: rest => by
    unfold splitDash
    by_cases hc : c = Char.ofNat 45
    · rw [if_pos hc]
      rcases h : splitDash rest with _ | ⟨p, ps⟩
      · exact absurd h (splitDash_ne_nil rest)
      · have ih := joinDash_splitDash rest
        rw [h] at ih
        subst hc
        cases ps with
        | nil => simpa [joinDash] using ih
        | cons q qs => simp [joinDash] at ih ⊢; exact ih
    · rw [if_neg hc]
      rcases h : splitDash rest with _ | ⟨p, ps⟩
      · exact absurd h (splitDash_ne_nil rest)
      · have ih := joinDash_splitDash rest
        rw [h] at ih
        cases ps with
        | nil => simpa [joinDash] using congrArg (c :: ·) ih
        | cons q qs =>
          simp only [joinDash] at ih ⊢
          rw [List.cons_append, ih]

/-- A lowercase hex digit has a value below 16, and rendering that value
back with `hexDigitChar` recovers the digit. -/
lemma lowerHex_val (c : Char) (h : isLowerHexDigit c = true) :
    ∃ v, hexDigitVal c = some v ∧ v < 16 ∧ hexDigitChar v = c := by
  simp only [isLowerHexDigit, decide_eq_true_eq] at h
  rcases h with ⟨h1, h2⟩ | ⟨h1, h2⟩
  · refine ⟨c.toNat - 48, ?_, by omega, ?_⟩
    · unfold hexDigitVal
      rw [if_pos ⟨h1, h2⟩]
    · unfold hexDigitChar
      rw [if_pos (by omega), show 48 + (c.toNat - 48) = c.toNat by omega,
        Char.ofNat_toNat]
  · refine ⟨c.toNat - 87, ?_, by omega, ?_⟩
    · unfold hexDigitVal
      rw [if_neg (by omega), if_pos ⟨h1, h2⟩]
    · unfold hexDigitChar
      rw [if_neg (by omega), show 87 + (c.toNat - 87) = c.toNat by omega,
        Char.ofNat_toNat]

/-- Pairwise hex parsing succeeds on an even-length lowercase-hex string,
and rendering the parsed bytes back recovers the string. -/
lemma fromHexPairs_roundtrip : ∀ l : List Char,
    (∀ c ∈ l, isLowerHexDigit c = true) → l.length % 2 = 0 →
    ∃ bs, fromHexPairs l = some bs ∧ bytesToHex bs = l ∧ bs.length * 2 = l.length
  | [], _, _ => ⟨[], rfl, rfl, rfl⟩
  | [c], _, hlen => absurd hlen (by simp)
  | c1 :: c2 :: rest, h, hlen => by
    obtain ⟨v1, hv1, hv1lt, hc1⟩ := lowerHex_val c1 (h c1 (by simp))
    obtain ⟨v2, hv2, hv2lt, hc2⟩ := lowerHex_val c2 (h c2 (by simp))
    obtain ⟨bs, hbs, hhex, hblen⟩ := fromHexPairs_roundtrip rest
      (fun c hc => h c (by simp [hc])) (by simp only [List.length_cons] at hlen ⊢; omega)
    refine ⟨(v1 * 16 + v2) :: bs, ?_, ?_, ?_⟩
    · unfold fromHexPairs
      rw [hv1, hv2, hbs]
    · show bytesToHex ((v1 * 16 + v2) :: bs) = c1 :: c2 :: rest
      unfold bytesToHex
      simp only [List.map_cons, List.flatten_cons]
      unfold bytesToHex at hhex
      rw [hhex]
      unfold byteToHex
      rw [show (v1 * 16 + v2) / 16 = v1 by omega,
        show (v1 * 16 + v2) % 16 = v2 by omega, hc1, hc2]
      rfl
    · simp only [List.length_cons] at hlen ⊢
      omega

/-- `bytes.fromhex` on a lowercase-hex string: the whitespace filter is the
identity and pairwise parsing round-trips. -/
lemma pyFromHex_lowerHex (p : List Char) (h : ∀ c ∈ p, isLowerHexDigit c = true)
    (hlen : p.length % 2 = 0) :
    ∃ bs, pyFromHex p = some bs ∧ bytesToHex bs = p ∧ bs.length * 2 = p.length := by
  unfold pyFromHex
  have hf : p.filter (fun c => ¬ (c.toNat = 32 ∨ c.toNat = 9 ∨ c.toNat = 10 ∨
      c.toNat = 13 ∨ c.toNat = 11 ∨ c.toNat = 12)) = p := by
    apply List.filter_eq_self.mpr
    intro c hc
    have := h c hc
    simp only [isLowerHexDigit, decide_eq_true_eq] at this
    simp only [decide_eq_true_eq]
    omega
  rw [hf]
  exact fromHexPairs_roundtrip p h hlen

/-- Rendering the five re-reversed GUID groups slices them back apart. -/
lemma guidCanonical_concat (b1 b2 b3 b4 b5 : List Nat)
    (h1 : b1.length = 4) (h2 : b2.length = 2) (h3 : b3.length = 2)
    (h4 : b4.length = 2) (h5 : b5.length = 6) :
    guidCanonical (b1.reverse ++ b2.reverse ++ b3.reverse ++ b4 ++ b5) =
      bytesToHex b1 ++ Char.ofNat 45 :: (bytesToHex b2 ++ Char.ofNat 45 ::
        (bytesToHex b3 ++ Char.ofNat 45 :: (bytesToHex b4 ++ Char.ofNat 45 ::
          bytesToHex b5))) := by
  unfold guidCanonical
  have t4 : (b1.reverse ++ b2.reverse ++ b3.reverse ++ b4 ++ b5).take 4 = b1.reverse := by
    rw [show b1.reverse ++ b2.reverse ++ b3.reverse ++ b4 ++ b5 =
      b1.reverse ++ (b2.reverse ++ b3.reverse ++ b4 ++ b5) by simp [List.append_assoc]]
    exact List.take_left' (by simp [h1])
  have d4 : (b1.reverse ++ b2.reverse ++ b3.reverse ++ b4 ++ b5).drop 4 =
      b2.reverse ++ b3.reverse ++ b4 ++ b5 := by
    rw [show b1.reverse ++ b2.reverse ++ b3.reverse ++ b4 ++ b5 =
      b1.reverse ++ (b2.reverse ++ b3.reverse ++ b4 ++ b5) by simp [List.append_assoc]]
    exact List.drop_left' (by simp [h1])
  have d6 : (b1.reverse ++ b2.reverse ++ b3.reverse ++ b4 ++ b5).drop 6 =
      b3.reverse ++ b4 ++ b5 := by
    rw [show b1.reverse ++ b2.reverse ++ b3.reverse ++ b4 ++ b5 =
      (b1.reverse ++ b2.reverse) ++ (b3.reverse ++ b4 ++ b5) by simp [List.append_assoc]]
    exact List.drop_left' (by simp [h1, h2])
  have d8 : (b1.reverse ++ b2.reverse ++ b3.reverse ++ b4 ++ b5).drop 8 = b4 ++ b5 := by
    rw [show b1.reverse ++ b2.reverse ++ b3.reverse ++ b4 ++ b5 =
      (b1.reverse ++ b2.reverse ++ b3.reverse) ++ (b4 ++ b5) by simp [List.append_assoc]]
    exact List.drop_left' (by simp [h1, h2, h3])
  have d10 : (b1.reverse ++ b2.reverse ++ b3.reverse ++ b4 ++ b5).drop 10 = b5 := by
    rw [show b1.reverse ++ b2.reverse ++ b3.reverse ++ b4 ++ b5 =
      (b1.reverse ++ b2.reverse ++ b3.reverse ++ b4) ++ b5 by simp [List.append_assoc]]
    exact List.drop_left' (by simp [h1, h2, h3, h4])
  have t2a : (b2.reverse ++ b3.reverse ++ b4 ++ b5).take 2 = b2.reverse := by
    rw [show b2.reverse ++ b3.reverse ++ b4 ++ b5 =
      b2.reverse ++ (b3.reverse ++ b4 ++ b5) by simp [List.append_assoc]]
    exact List.take_left' (by simp [h2])
  have t2b : (b3.reverse ++ b4 ++ b5).take 2 = b3.reverse := by
    rw [show b3.reverse ++ b4 ++ b5 = b3.reverse ++ (b4 ++ b5) by
      simp [List.append_assoc]]
    exact List.take_left' (by simp [h3])
  have t2c : (b4 ++ b5).take 2 = b4 := List.take_left' h4
  have t6 : b5.take 6 = b5 := List.take_of_length_le (by omega)
  rw [t4, d4, d6, d8, d10, t2a, t2b, t2c, t6]
  simp [List.reverse_reverse]

/-- C8: for every canonical GUID string (five dash-separated lowercase-hex
groups of byte lengths 4-2-2-2-6), `read_guid` of the 16 bytes produced by
`write_guid` returns the same string; in particular the raw bytes
`00 11 .. FF` render as `"33221100-5544-7766-8899-aabbccddeeff"` and
writing that string reproduces the original bytes. -/
theorem c8_guid_roundtrip :
    (∀ g : List Char, isCanonicalGuid g = true →
      readGuid (writeGuidBytes g) 0 = (g, 16)) ∧
    readGuid [0, 17, 34, 51, 68, 85, 102, 119, 136, 153, 170, 187, 204, 221, 238, 255] 0 =
      ("33221100-5544-7766-8899-aabbccddeeff".toList, 16) ∧
    writeGuidBytes ("33221100-5544-7766-8899-aabbccddeeff".toList) =
      [0, 17, 34, 51, 68, 85, 102, 119, 136, 153, 170, 187, 204, 221, 238, 255] := by
  refine ⟨?_, rfl, rfl⟩
  intro g hg
  unfold isCanonicalGuid at hg
  split at hg
  case h_2 => exact absurd hg (by simp)
  case h_1 p1 p2 p3 p4 p5 hsp =>
    simp only [Bool.and_eq_true, decide_eq_true_eq, List.all_eq_true] at hg
    obtain ⟨⟨l1, l2, l3, l4, l5⟩, a1, a2, a3, a4, a5⟩ := hg
    obtain ⟨b1, hb1, hx1, hn1⟩ := pyFromHex_lowerHex p1 a1 (by omega)
    obtain ⟨b2, hb2, hx2, hn2⟩ := pyFromHex_lowerHex p2 a2 (by omega)
    obtain ⟨b3, hb3, hx3, hn3⟩ := pyFromHex_lowerHex p3 a3 (by omega)
    obtain ⟨b4, hb4, hx4, hn4⟩ := pyFromHex_lowerHex p4 a4 (by omega)
    obtain ⟨b5, hb5, hx5, hn5⟩ := pyFromHex_lowerHex p5 a5 (by omega)
    have hjoin := joinDash_splitDash g
    rw [hsp] at hjoin
    have hwb : writeGuidBytes g =
        b1.reverse ++ b2.reverse ++ b3.reverse ++ b4 ++ b5 := by
      unfold writeGuidBytes
      rw [hsp]
      dsimp only
      rw [hb1, hb2, hb3, hb4, hb5]
      dsimp only
      rw [if_pos ⟨by omega, by omega, by omega, by omega, by omega⟩]
    rw [hwb]
    unfold readGuid
    dsimp only
    have hlen16 : (b1.reverse ++ b2.reverse ++ b3.reverse ++ b4 ++ b5).length = 16 := by
      simp
      omega
    rw [List.drop_zero, List.take_of_length_le (by omega), if_pos hlen16]
    rw [guidCanonical_concat b1 b2 b3 b4 b5 (by omega) (by omega) (by omega)
      (by omega) (by omega)]
    rw [hx1, hx2, hx3, hx4, hx5]
    rw [show p1 ++ Char.ofNat 45 :: (p2 ++ Char.ofNat 45 :: (p3 ++ Char.ofNat 45 ::
      (p4 ++ Char.ofNat 45 :: p5))) = joinDash [p1, p2, p3, p4, p5] from rfl, hjoin]

/-- Witness for `c8_guid_roundtrip`: the canonical rendering of the S4
bytes round-trips through `write_guid` and `read_guid`. -/
theorem c8_guid_roundtrip_witness :
    isCanonicalGuid ("33221100-5544-7766-8899-aabbccddeeff".toList) = true ∧
    readGuid (writeGuidBytes ("33221100-5544-7766-8899-aabbccddeeff".toList)) 0 =
      ("33221100-5544-7766-8899-aabbccddeeff".toList, 16) :=
  ⟨by decide, (c8_guid_roundtrip).1 ("33221100-5544-7766-8899-aabbccddeeff".toList)
    (by decide)⟩

end Uesave
